import Mathlib

/-!
Shallow embedding of the testnet topology, identity and genesis-reconciliation
engine of tmtestnet.py (informalsystems/testnets), together with theorems
checking the specification's claims about it.

Conventions of the embedding:
* Python byte strings are `List Nat` (each entry a byte value, below 256 for
  real inputs); machine words in the hash are `Nat` reduced modulo 2 ^ 32.
* Fallible Python functions (those that `raise`) become `Except String`.
* Python `dict` / `OrderedDict` values are association lists preserving
  insertion order; Python `set` values are duplicate-free lists in first
  insertion order (Python's set iteration order is unspecified, so any claim
  depending only on the *contents* of a set is stated about contents).
* Filesystem reads and writes are modelled as explicit inputs (a lookup
  function for provisioning outputs) and outputs (lists of path/content
  pairs) of the embedded functions.
-/

deriving instance DecidableEq for Except

namespace Tmtestnet

/-- Character for the digit value n below 16, digits then lowercase letters.
This matches the characters produced by Python's decimal and lowercase-hex
formatting. -/
def digitChar (n : Nat) : Char :=
  if n < 10 then Char.ofNat (48 + n) else Char.ofNat (87 + n)

/-- Fuel-driven big-endian decimal rendering of a natural number. With fuel
above n the recursion always completes; `natToDecimal` supplies such fuel. -/
def natToDecAux : Nat → Nat → List Char
  | 0, _ => []
  | fuel + 1, n =>
    if n < 10 then [digitChar n]
    else natToDecAux fuel (n / 10) ++ [digitChar (n % 10)]

/-- Big-endian decimal rendering of a natural number, as in Python's "%d". -/
def natToDecimal (n : Nat) : List Char :=
  natToDecAux (n + 1) n

/-- Decimal rendering of an integer, as in Python's "%d": a minus sign for
negative values, no sign otherwise. -/
def intToDecimal (i : Int) : List Char :=
  if i < 0 then '-' :: natToDecimal i.natAbs else natToDecimal i.toNat

/-- Folds decimal digit characters into the value they denote. -/
def valFold (a : Nat) (l : List Char) : Nat :=
  l.foldl (fun acc c => 10 * acc + (c.toNat - 48)) a

/-- Value of a nonempty all-digit character sequence, `none` otherwise. -/
def digitsNat? (l : List Char) : Option Nat :=
  if l = [] then none
  else if l.all Char.isDigit then some (valFold 0 l) else none

/-- Whitespace characters stripped by Python's int() conversion (ASCII part). -/
def isPyWs (c : Char) : Bool :=
  c == ' ' || c == '\t' || c == '\n' || c == '\r' || c == '\x0b' || c == '\x0c'

/-- Strips leading and trailing whitespace. -/
def stripWs (l : List Char) : List Char :=
  ((l.dropWhile isPyWs).reverse.dropWhile isPyWs).reverse

/-- Sign-and-digits part of Python's int(str) conversion, applied after
whitespace stripping. -/
def pyIntCore : List Char → Option Int
  | [] => none
  | c :: rest =>
    if c = '-' then (digitsNat? rest).map (fun n => -(Int.ofNat n))
    else if c = '+' then (digitsNat? rest).map (fun n => Int.ofNat n)
    else (digitsNat? (c :: rest)).map (fun n => Int.ofNat n)

/-- Models Python's int(str) conversion on the forms relevant here: optional
surrounding whitespace, an optional sign, then a nonempty run of decimal
digits. (Python additionally accepts underscore digit grouping, which no
canonically rendered reference string contains; it is not modelled.) -/
def pythonInt? (l : List Char) : Option Int :=
  pyIntCore (stripWs l)

/-- One step of splitting: prepends character c to the first part of an
already-split tail. -/
def consPart (c sep : Char) : List (List Char) → List (List Char)
  | [] => [[]]
  | p :: ps => if c = sep then [] :: p :: ps else (c :: p) :: ps

/-- Splits a character list at every occurrence of sep, keeping empty parts,
as Python's str.split does for a one-character separator. The result is
always nonempty. -/
def splitOnChar (sep : Char) : List Char → List (List Char)
  | [] => [[]]
  | c :: rest => consPart c sep (splitOnChar sep rest)

/-- Removes every occurrence of a character, as Python's replace(c, ""). -/
def removeAllChar (l : List Char) (c : Char) : List Char :=
  l.filter (fun a => a ≠ c)

-- Basic lemmas about the decimal machinery.

theorem natToDecAux_succ (fuel n : Nat) :
    natToDecAux (fuel + 1) n =
      if n < 10 then [digitChar n]
      else natToDecAux fuel (n / 10) ++ [digitChar (n % 10)] := rfl

theorem natToDecAux_congr :
    ∀ (f1 f2 n : Nat), n < f1 → n < f2 → natToDecAux f1 n = natToDecAux f2 n := by
  intro f1
  induction f1 with
  | zero => intro f2 n h1 _; omega
  | succ f ih =>
    intro f2 n h1 h2
    cases f2 with
    | zero => omega
    | succ f' =>
      rw [natToDecAux_succ, natToDecAux_succ]
      by_cases hn : n < 10
      · simp [hn]
      · have hdiv : n / 10 < n := Nat.div_lt_self (by omega) (by omega)
        rw [if_neg hn, if_neg hn, ih f' (n / 10) (by omega) (by omega)]

theorem natToDecimal_lt (n : Nat) (h : n < 10) : natToDecimal n = [digitChar n] := by
  show natToDecAux (n + 1) n = _
  rw [natToDecAux_succ, if_pos h]

theorem natToDecimal_ge (n : Nat) (h : ¬ n < 10) :
    natToDecimal n = natToDecimal (n / 10) ++ [digitChar (n % 10)] := by
  have hdiv : n / 10 < n := Nat.div_lt_self (by omega) (by omega)
  show natToDecAux (n + 1) n = _
  rw [natToDecAux_succ, if_neg h,
    natToDecAux_congr n (n / 10 + 1) (n / 10) (by omega) (by omega)]
  rfl

theorem digitChar_isDigit (n : Nat) (h : n < 10) : (digitChar n).isDigit = true := by
  interval_cases n <;> decide

theorem digitChar_toNat (n : Nat) (h : n < 10) : (digitChar n).toNat = 48 + n := by
  interval_cases n <;> decide

theorem natToDecimal_ne_nil (n : Nat) : natToDecimal n ≠ [] := by
  by_cases h : n < 10
  · rw [natToDecimal_lt n h]; simp
  · rw [natToDecimal_ge n h]; simp

theorem natToDecimal_all_digit (n : Nat) : ∀ c ∈ natToDecimal n, c.isDigit = true := by
  induction n using Nat.strong_induction_on with
  | _ n ih =>
    by_cases h : n < 10
    · rw [natToDecimal_lt n h]
      intro c hc
      simp at hc
      exact hc ▸ digitChar_isDigit n h
    · rw [natToDecimal_ge n h]
      intro c hc
      rcases List.mem_append.mp hc with h1 | h2
      · exact ih (n / 10) (Nat.div_lt_self (by omega) (by omega)) c h1
      · simp at h2
        exact h2 ▸ digitChar_isDigit (n % 10) (Nat.mod_lt n (by omega))

theorem valFold_append_singleton (a : Nat) (l : List Char) (c : Char) :
    valFold a (l ++ [c]) = 10 * valFold a l + (c.toNat - 48) := by
  simp [valFold, List.foldl_append]

theorem valFold_natToDecimal (n : Nat) : valFold 0 (natToDecimal n) = n := by
  induction n using Nat.strong_induction_on with
  | _ n ih =>
    by_cases h : n < 10
    · rw [natToDecimal_lt n h]
      simp [valFold, digitChar_toNat n h]
    · rw [natToDecimal_ge n h, valFold_append_singleton,
        ih (n / 10) (Nat.div_lt_self (by omega) (by omega)),
        digitChar_toNat (n % 10) (Nat.mod_lt n (by omega))]
      omega

theorem digitsNat?_natToDecimal (n : Nat) : digitsNat? (natToDecimal n) = some n := by
  simp only [digitsNat?]
  rw [if_neg (natToDecimal_ne_nil n)]
  rw [if_pos]
  · rw [valFold_natToDecimal]
  · rw [List.all_eq_true]
    exact natToDecimal_all_digit n

theorem ne_of_isDigit_of_not (c x : Char) (h : c.isDigit = true) (hx : x.isDigit = false) :
    c ≠ x := by
  intro e
  rw [e, hx] at h
  cases h

theorem isPyWs_eq_false_of_isDigit (c : Char) (h : c.isDigit = true) : isPyWs c = false := by
  simp only [isPyWs, Bool.or_eq_false_iff, beq_eq_false_iff_ne]
  and_intros <;> exact ne_of_isDigit_of_not _ _ h (by decide)

theorem dropWhile_eq_self_of_all (p : Char → Bool) (l : List Char)
    (h : ∀ c ∈ l, p c = false) : l.dropWhile p = l := by
  cases l with
  | nil => rfl
  | cons c t => simp [List.dropWhile_cons, h c (by simp)]

theorem stripWs_eq_self (l : List Char) (h : ∀ c ∈ l, isPyWs c = false) : stripWs l = l := by
  have h1 : l.dropWhile isPyWs = l := dropWhile_eq_self_of_all _ _ h
  have h2 : l.reverse.dropWhile isPyWs = l.reverse :=
    dropWhile_eq_self_of_all _ _ (fun c hc => h c (List.mem_reverse.mp hc))
  simp [stripWs, h1, h2]

theorem removeAllChar_eq_self (l : List Char) (c : Char) (h : ∀ a ∈ l, a ≠ c) :
    removeAllChar l c = l := by
  simp only [removeAllChar]
  rw [List.filter_eq_self]
  intro a ha
  simp [h a ha]

theorem pyIntCore_cons (c : Char) (rest : List Char) :
    pyIntCore (c :: rest) =
      if c = '-' then (digitsNat? rest).map (fun n => -(Int.ofNat n))
      else if c = '+' then (digitsNat? rest).map (fun n => Int.ofNat n)
      else (digitsNat? (c :: rest)).map (fun n => Int.ofNat n) := rfl

theorem pythonInt?_natToDecimal (n : Nat) :
    pythonInt? (natToDecimal n) = some (n : Int) := by
  have hws : ∀ c ∈ natToDecimal n, isPyWs c = false :=
    fun c hc => isPyWs_eq_false_of_isDigit c (natToDecimal_all_digit n c hc)
  rw [pythonInt?, stripWs_eq_self _ hws]
  cases heq : natToDecimal n with
  | nil => exact absurd heq (natToDecimal_ne_nil n)
  | cons c rest =>
    have hcd : c.isDigit = true := natToDecimal_all_digit n c (by rw [heq]; simp)
    have hcm : c ≠ '-' := ne_of_isDigit_of_not _ _ hcd (by decide)
    have hcp : c ≠ '+' := ne_of_isDigit_of_not _ _ hcd (by decide)
    rw [pyIntCore_cons, if_neg hcm, if_neg hcp, ← heq, digitsNat?_natToDecimal]
    rfl

theorem pythonInt?_intToDecimal (k : Int) :
    pythonInt? (intToDecimal k) = some k := by
  by_cases hk : k < 0
  · have hdec : intToDecimal k = '-' :: natToDecimal k.natAbs := by
      simp [intToDecimal, hk]
    have hws : ∀ c ∈ intToDecimal k, isPyWs c = false := by
      rw [hdec]
      intro c hc
      rcases List.mem_cons.mp hc with h1 | h2
      · rw [h1]; decide
      · exact isPyWs_eq_false_of_isDigit c (natToDecimal_all_digit _ c h2)
    rw [pythonInt?, stripWs_eq_self _ hws, hdec, pyIntCore_cons, if_pos rfl,
      digitsNat?_natToDecimal]
    simp only [Option.map_some', Int.ofNat_eq_coe]
    congr 1
    omega
  · have hdec : intToDecimal k = natToDecimal k.toNat := by
      simp [intToDecimal, hk]
    rw [hdec, pythonInt?_natToDecimal]
    congr 1
    omega

-- Lemmas about splitting on a separator character.

theorem splitOnChar_nil (sep : Char) : splitOnChar sep [] = [[]] := rfl

theorem splitOnChar_cons (sep c : Char) (rest : List Char) :
    splitOnChar sep (c :: rest) = consPart c sep (splitOnChar sep rest) := rfl

theorem consPart_cons (c sep : Char) (p : List Char) (ps : List (List Char)) :
    consPart c sep (p :: ps) = if c = sep then [] :: p :: ps else (c :: p) :: ps := rfl

theorem splitOnChar_ne_nil (sep : Char) (l : List Char) : splitOnChar sep l ≠ [] := by
  cases l with
  | nil => simp [splitOnChar_nil]
  | cons c rest =>
    rw [splitOnChar_cons]
    cases splitOnChar sep rest with
    | nil => simp [consPart]
    | cons p ps => rw [consPart_cons]; by_cases h : c = sep <;> simp [h]

theorem splitOnChar_of_not_mem (sep : Char) (l : List Char) (h : ∀ c ∈ l, c ≠ sep) :
    splitOnChar sep l = [l] := by
  induction l with
  | nil => rfl
  | cons c t ih =>
    rw [splitOnChar_cons, ih (fun a ha => h a (by simp [ha])), consPart_cons,
      if_neg (h c (by simp))]

theorem splitOnChar_append (sep : Char) (g t : List Char) (h : ∀ c ∈ g, c ≠ sep) :
    splitOnChar sep (g ++ sep :: t) = g :: splitOnChar sep t := by
  induction g with
  | nil =>
    cases heq : splitOnChar sep t with
    | nil => exact absurd heq (splitOnChar_ne_nil sep t)
    | cons p ps =>
      rw [List.nil_append, splitOnChar_cons, heq, consPart_cons, if_pos rfl, ← heq]
  | cons c g' ih =>
    have hc : c ≠ sep := h c (by simp)
    rw [List.cons_append, splitOnChar_cons, ih (fun a ha => h a (by simp [ha])),
      consPart_cons, if_neg hc]

/-!
Node references (TestnetNodeRef namedtuple, validate_group_name,
as_testnet_node_ref, as_testnet_node_refs, testnet_node_ref_to_str).
-/

/-- Reference to a whole node group (id none) or one node of it (id some).
The id is an arbitrary Python integer: parsing does no bounds checking. -/
structure TestnetNodeRef where
  group : String
  id : Option Int := none
deriving DecidableEq, Repr

/-- Membership test for ALLOWED_GROUP_NAME_CHARSET, the set of ASCII
letters, digits, underscore and hyphen. -/
def ALLOWED_GROUP_NAME_CHARSET (c : Char) : Bool :=
  c.isAlpha || c.isDigit || c == '_' || c == '-'

/-- Embeds validate_group_name: accepts the name when every character is in
the allowed charset, otherwise raises. -/
def validate_group_name (n ctx : String) : Except String String :=
  if n.toList.all ALLOWED_GROUP_NAME_CHARSET then Except.ok n
  else Except.error ("Invalid character in group name " ++ n ++ " (" ++ ctx ++ ")")

/-- Embeds as_testnet_node_ref: a string without an opening bracket is a
whole-group reference; otherwise it is split on the bracket, the first part
is the (validated) group name and the second, with closing brackets removed,
is converted to an integer index with Python int(). -/
def as_testnet_node_ref (s ctx : String) : Except String TestnetNodeRef :=
  if '[' ∉ s.toList then
    (validate_group_name s ctx).map (fun g => { group := g })
  else if (splitOnChar '[' s.toList).length > 2 then
    Except.error ("Invalid group/node ID format: " ++ s ++ " (" ++ ctx ++ ")")
  else
    (validate_group_name (String.mk ((splitOnChar '[' s.toList).getD 0 [])) ctx).bind
      (fun g =>
        match pythonInt? (removeAllChar ((splitOnChar '[' s.toList).getD 1 []) ']') with
        | some k => Except.ok { group := g, id := some k }
        | none =>
          Except.error ("Expected node index to be an integer: " ++ s ++ " (" ++ ctx ++ ")"))

/-- Indexed loop of as_testnet_node_refs, threading the entry counter used
in the error context. -/
def as_testnet_node_refs_aux (ctx : String) : Nat → List String → Except String (List TestnetNodeRef)
  | _, [] => Except.ok []
  | i, s :: rest =>
    (as_testnet_node_ref s ("entry " ++ String.mk (natToDecimal i) ++ ", " ++ ctx)).bind
      (fun r => (as_testnet_node_refs_aux ctx (i + 1) rest).map (fun rs => r :: rs))

/-- Embeds as_testnet_node_refs: parses each entry, failing on the first
invalid one. -/
def as_testnet_node_refs (l : List String) (ctx : String) : Except String (List TestnetNodeRef) :=
  as_testnet_node_refs_aux ctx 0 l

/-- Embeds testnet_node_ref_to_str: group, or group followed by the bracketed
decimal index. -/
def testnet_node_ref_to_str (ref : TestnetNodeRef) : String :=
  match ref.id with
  | none => ref.group
  | some k => ref.group ++ "[" ++ String.mk (intToDecimal k) ++ "]"

-- Parsing lemmas for node references.

theorem ne_of_pred_true_of_false (f : Char → Bool) (c x : Char)
    (h : f c = true) (hx : f x = false) : c ≠ x := by
  intro e
  rw [e, hx] at h
  cases h

theorem except_bind_ok {α β : Type} (x : α) (f : α → Except String β) :
    (Except.ok x : Except String α).bind f = f x := rfl

theorem intToDecimal_chars (k : Int) :
    ∀ c ∈ intToDecimal k, c.isDigit = true ∨ c = '-' := by
  intro c hc
  by_cases hk : k < 0
  · rw [intToDecimal, if_pos hk] at hc
    rcases List.mem_cons.mp hc with h1 | h2
    · right; exact h1
    · left; exact natToDecimal_all_digit _ c h2
  · rw [intToDecimal, if_neg hk] at hc
    left; exact natToDecimal_all_digit _ c hc

theorem intToDecimal_no_bracket (k : Int) :
    ∀ c ∈ intToDecimal k, c ≠ '[' ∧ c ≠ ']' := by
  intro c hc
  rcases intToDecimal_chars k c hc with hd | hm
  · exact ⟨ne_of_pred_true_of_false _ _ _ hd (by decide),
      ne_of_pred_true_of_false _ _ _ hd (by decide)⟩
  · subst hm
    exact ⟨by decide, by decide⟩

theorem allowed_no_bracket (c : Char) (h : ALLOWED_GROUP_NAME_CHARSET c = true) :
    c ≠ '[' ∧ c ≠ ']' :=
  ⟨ne_of_pred_true_of_false _ _ _ h (by decide),
    ne_of_pred_true_of_false _ _ _ h (by decide)⟩

theorem as_testnet_node_ref_whole_group (g ctx : String)
    (h : g.toList.all ALLOWED_GROUP_NAME_CHARSET = true) :
    as_testnet_node_ref g ctx = Except.ok { group := g } := by
  have hnb : '[' ∉ g.toList := by
    intro hmem
    exact absurd rfl
      (allowed_no_bracket '[' (List.all_eq_true.mp h '[' hmem)).1
  rw [as_testnet_node_ref, if_pos hnb, validate_group_name, if_pos h]
  rfl

theorem as_testnet_node_ref_indexed (g ctx : String) (k : Int)
    (h : g.toList.all ALLOWED_GROUP_NAME_CHARSET = true) :
    as_testnet_node_ref (g ++ "[" ++ String.mk (intToDecimal k) ++ "]") ctx =
      Except.ok { group := g, id := some k } := by
  have hdata : (g ++ "[" ++ String.mk (intToDecimal k) ++ "]").toList =
      g.toList ++ '[' :: (intToDecimal k ++ [']']) := by
    show (g ++ "[" ++ String.mk (intToDecimal k) ++ "]").data = _
    simp [String.data_append]
  have hgnb : ∀ c ∈ g.toList, c ≠ '[' :=
    fun c hc => (allowed_no_bracket c (List.all_eq_true.mp h c hc)).1
  have htail : ∀ c ∈ intToDecimal k ++ [']'], c ≠ '[' := by
    intro c hc
    rcases List.mem_append.mp hc with h1 | h2
    · exact (intToDecimal_no_bracket k c h1).1
    · simp at h2; subst h2; decide
  have hsplit : splitOnChar '[' ((g ++ "[" ++ String.mk (intToDecimal k) ++ "]").toList) =
      [g.toList, intToDecimal k ++ [']']] := by
    rw [hdata, splitOnChar_append '[' _ _ hgnb,
      splitOnChar_of_not_mem '[' _ htail]
  have hmem : '[' ∈ (g ++ "[" ++ String.mk (intToDecimal k) ++ "]").toList := by
    rw [hdata]
    exact List.mem_append.mpr (Or.inr (by simp))
  rw [as_testnet_node_ref, if_neg (by simp [hmem]), hsplit]
  simp only [List.length_cons, List.length_nil]
  rw [if_neg (by omega)]
  have hrm : removeAllChar (intToDecimal k ++ [']']) ']' = intToDecimal k := by
    rw [removeAllChar, List.filter_append]
    have h1 : (intToDecimal k).filter (fun a => a ≠ ']') = intToDecimal k := by
      rw [List.filter_eq_self]
      intro a ha
      simp [(intToDecimal_no_bracket k a ha).2]
    have h2 : [']'].filter (fun a => (a ≠ ']' : Bool)) = [] := by decide
    rw [h1, h2, List.append_nil]
  rw [show ([g.toList, intToDecimal k ++ [']']].getD 0 []) = g.toList from rfl,
    show ([g.toList, intToDecimal k ++ [']']].getD 1 []) = intToDecimal k ++ [']'] from rfl,
    hrm, pythonInt?_intToDecimal,
    show String.mk g.toList = g from rfl,
    validate_group_name, if_pos h]
  rfl

/-!
Region lists (SUPPORTED_REGIONS, TestnetRegionConfig, parse_regions_list).
-/

/-- Per-region allocation: node count and first node id. Counts come from the
YAML document as Python integers, so they are modelled as Int. -/
structure TestnetRegionConfig where
  node_count : Int := 0
  start_id : Int := 0
deriving DecidableEq, Repr

/-- Supported regions. The source keeps them in a set; the fixed order here
stands in for the set's unspecified iteration order, which only affects the
ordering of the zero-count entries appended for unlisted regions. -/
def SUPPORTED_REGIONS : List String :=
  ["us_east_1", "us_east_2", "us_west_1", "ap_northeast_2", "ap_southeast_2",
    "eu_central_1", "eu_west_1"]

/-- Result of Except, as a Bool. -/
def isOkE {α : Type} : Except String α → Bool
  | Except.ok _ => true
  | Except.error _ => false

/-- A one-entry mapping's single key/value pair, if the mapping has exactly
one entry (Python's len(region) != 1 check plus tuple unpacking). -/
def singlePair? : List (String × Int) → Option (String × Int)
  | [p] => some p
  | _ => none

/-- Decimal string of a Nat, for building error-context strings. -/
def natStr (n : Nat) : String :=
  String.mk (natToDecimal n)

/-- Loop of parse_regions_list: walks the declared items carrying the running
start_id, item counter and seen-region set; at the end appends a zero-count
entry for every supported region not declared. -/
def parse_regions_aux (ctx : String) :
    List (List (String × Int)) → Int → Nat → List String →
      Except String (List (String × TestnetRegionConfig))
  | [], _, _, seen =>
    Except.ok ((SUPPORTED_REGIONS.filter (fun r => r ∉ seen)).map
      (fun r => (r, { node_count := 0, start_id := 0 })))
  | region :: rest, start_id, i, seen =>
    match singlePair? region with
    | none =>
      Except.error ("Expected regions item " ++ natStr i ++
        " to be a single key/value pair (" ++ ctx ++ ")")
    | some (region_id, node_count) =>
      if region_id ∉ SUPPORTED_REGIONS then
        Except.error ("Unsupported region " ++ region_id ++ " in item " ++ natStr i ++
          " (" ++ ctx ++ ")")
      else if region_id ∈ seen then
        Except.error ("Duplicate region " ++ region_id ++ " in item " ++ natStr i ++
          " (" ++ ctx ++ ")")
      else
        (parse_regions_aux ctx rest (start_id + node_count) (i + 1) (seen ++ [region_id])).map
          (fun tail => (region_id, { node_count := node_count, start_id := start_id }) :: tail)

/-- Embeds parse_regions_list. The argument is the raw "regions" value of the
group document: none models a value that is not a list (for example a missing
key defaulted to None), which the source rejects with its isinstance check. -/
def parse_regions_list (regions_list : Option (List (List (String × Int)))) (ctx : String) :
    Except String (List (String × TestnetRegionConfig)) :=
  match regions_list with
  | none =>
    Except.error ("Expected regions parameter to be a list of key/value pairs (" ++ ctx ++ ")")
  | some l => parse_regions_aux ctx l 0 0 []

/-- Expected shape of the declared part of a parsed region list: entries in
declared order, start_id the running sum of previous counts. -/
def regionsSpec : List (String × Int) → Int → List (String × TestnetRegionConfig)
  | [], _ => []
  | (rid, cnt) :: rest, start_id =>
    (rid, { node_count := cnt, start_id := start_id }) :: regionsSpec rest (start_id + cnt)

theorem parse_regions_aux_nil (ctx : String) (sid : Int) (i : Nat) (seen : List String) :
    parse_regions_aux ctx [] sid i seen =
      Except.ok ((SUPPORTED_REGIONS.filter (fun r => r ∉ seen)).map
        (fun r => (r, { node_count := 0, start_id := 0 }))) := rfl

theorem parse_regions_aux_pair (ctx : String) (rid : String) (cnt : Int)
    (rest : List (List (String × Int))) (sid : Int) (i : Nat) (seen : List String) :
    parse_regions_aux ctx ([(rid, cnt)] :: rest) sid i seen =
      (if rid ∉ SUPPORTED_REGIONS then
        Except.error ("Unsupported region " ++ rid ++ " in item " ++ natStr i ++
          " (" ++ ctx ++ ")")
      else if rid ∈ seen then
        Except.error ("Duplicate region " ++ rid ++ " in item " ++ natStr i ++
          " (" ++ ctx ++ ")")
      else
        (parse_regions_aux ctx rest (sid + cnt) (i + 1) (seen ++ [rid])).map
          (fun tail => (rid, { node_count := cnt, start_id := sid }) :: tail)) := rfl

/-- Shape of every successful run of the parse_regions_list loop. -/
theorem parse_regions_aux_ok_shape (ctx : String) :
    ∀ (items : List (String × Int)) (sid : Int) (i : Nat) (seen : List String)
      (res : List (String × TestnetRegionConfig)),
      parse_regions_aux ctx (items.map (fun p => [p])) sid i seen = Except.ok res →
      res = regionsSpec items sid ++
        (SUPPORTED_REGIONS.filter
          (fun r => r ∉ (seen ++ items.map Prod.fst))).map
            (fun r => (r, { node_count := 0, start_id := 0 })) := by
  intro items
  induction items with
  | nil =>
    intro sid i seen res hres
    rw [List.map_nil, parse_regions_aux_nil] at hres
    cases hres
    simp [regionsSpec]
  | cons p rest ih =>
    intro sid i seen res hres
    obtain ⟨rid, cnt⟩ := p
    rw [List.map_cons, parse_regions_aux_pair] at hres
    by_cases h1 : rid ∉ SUPPORTED_REGIONS
    · rw [if_pos h1] at hres; cases hres
    · rw [if_neg h1] at hres
      by_cases h2 : rid ∈ seen
      · rw [if_pos h2] at hres; cases hres
      · rw [if_neg h2] at hres
        cases htail : parse_regions_aux ctx (rest.map (fun p => [p])) (sid + cnt) (i + 1)
            (seen ++ [rid]) with
        | error e => rw [htail] at hres; cases hres
        | ok tail =>
          rw [htail] at hres
          cases hres
          rw [ih (sid + cnt) (i + 1) (seen ++ [rid]) tail htail]
          simp only [regionsSpec, List.map_cons, List.cons_append, List.append_assoc,
            List.singleton_append, List.nil_append]

theorem isOkE_map {α β : Type} (e : Except String α) (f : α → β) :
    isOkE (e.map f) = isOkE e := by
  cases e <;> rfl

/-- Success condition of the parse_regions_list loop: every declared region
is supported, none is declared twice, and none is already in the seen set. -/
theorem parse_regions_aux_ok_iff (ctx : String) :
    ∀ (items : List (String × Int)) (sid : Int) (i : Nat) (seen : List String),
      isOkE (parse_regions_aux ctx (items.map (fun p => [p])) sid i seen) = true ↔
        ((∀ p ∈ items, p.1 ∈ SUPPORTED_REGIONS) ∧ (items.map Prod.fst).Nodup ∧
          ∀ p ∈ items, p.1 ∉ seen) := by
  intro items
  induction items with
  | nil => intro sid i seen; simp [parse_regions_aux_nil, isOkE]
  | cons p rest ih =>
    intro sid i seen
    obtain ⟨rid, cnt⟩ := p
    rw [List.map_cons, parse_regions_aux_pair]
    by_cases h1 : rid ∈ SUPPORTED_REGIONS
    · rw [if_neg (by simpa using h1)]
      by_cases h2 : rid ∈ seen
      · rw [if_pos h2]
        constructor
        · intro hfalse; cases hfalse
        · rintro ⟨_, _, hseen⟩
          exact absurd h2 (hseen (rid, cnt) (by simp))
      · rw [if_neg h2, isOkE_map, ih (sid + cnt) (i + 1) (seen ++ [rid])]
        constructor
        · rintro ⟨hsup, hnd, hsn⟩
          refine ⟨?_, ?_, ?_⟩
          · intro p hp
            rcases List.mem_cons.mp hp with hh | ht
            · rw [hh]; exact h1
            · exact hsup p ht
          · rw [List.map_cons, List.nodup_cons]
            refine ⟨?_, hnd⟩
            intro hmem
            rcases List.mem_map.mp hmem with ⟨q, hq, hqe⟩
            have := hsn q hq
            rw [List.mem_append] at this
            push_neg at this
            exact absurd (by simp [hqe]) this.2
          · intro p hp
            rcases List.mem_cons.mp hp with hh | ht
            · rw [hh]; exact h2
            · intro hmem
              exact absurd (List.mem_append.mpr (Or.inl hmem)) (hsn p ht)
        · rintro ⟨hsup, hnd, hsn⟩
          rw [List.map_cons, List.nodup_cons] at hnd
          refine ⟨fun p hp => hsup p (by simp [hp]), hnd.2, ?_⟩
          intro p hp hmem
          rcases List.mem_append.mp hmem with hl | hr
          · exact absurd hl (hsn p (by simp [hp]))
          · rw [List.mem_singleton] at hr
            exact hnd.1 (List.mem_map.mpr ⟨p, hp, hr⟩)
    · rw [if_pos (by simpa using h1)]
      constructor
      · intro hfalse; cases hfalse
      · rintro ⟨hsup, _, _⟩
        exact absurd (hsup (rid, cnt) (by simp)) h1

theorem regionsSpec_map_fst :
    ∀ (items : List (String × Int)) (sid : Int),
      (regionsSpec items sid).map Prod.fst = items.map Prod.fst := by
  intro items
  induction items with
  | nil => intro sid; rfl
  | cons p rest ih =>
    intro sid
    obtain ⟨rid, cnt⟩ := p
    simp [regionsSpec, ih]

theorem regionsSpec_counts :
    ∀ (items : List (String × Int)) (sid : Int),
      (regionsSpec items sid).map (fun e => e.2.node_count) = items.map Prod.snd := by
  intro items
  induction items with
  | nil => intro sid; rfl
  | cons p rest ih =>
    intro sid
    obtain ⟨rid, cnt⟩ := p
    simp [regionsSpec, ih]

theorem regionsSpec_getD :
    ∀ (items : List (String × Int)) (sid : Int) (i : Nat), i < items.length →
      ∀ (tail : List (String × TestnetRegionConfig)),
      (regionsSpec items sid ++ tail).getD i ("", { node_count := 0, start_id := 0 }) =
        ((items.getD i ("", 0)).1,
          { node_count := (items.getD i ("", 0)).2,
            start_id := sid + ((items.take i).map Prod.snd).sum }) := by
  intro items
  induction items with
  | nil => intro sid i hi; exact absurd hi (by simp)
  | cons p rest ih =>
    intro sid i hi tail
    obtain ⟨rid, cnt⟩ := p
    cases i with
    | zero => simp [regionsSpec]
    | succ j =>
      have hj : j < rest.length := by simpa using hi
      simp only [regionsSpec, List.cons_append, List.getD_cons_succ, List.getD_cons_succ,
        List.take_succ_cons, List.map_cons, List.sum_cons]
      rw [ih (sid + cnt) j hj tail]
      congr 2
      omega

/-!
Configuration model and loading (load_testnet_config and its helpers).
The YAML file is modelled from its parsed form: a document structure whose
Option fields are none when the corresponding key is absent. Filesystem
probes (os.path.isfile) are passed in as a predicate.
-/

/-- Embeds resolve_relative_path. An absolute path is returned as is, a
relative one is joined to the base path (os.path.normpath cleanup of the
joined path is not modelled; no claim depends on it). -/
def resolve_relative_path (path base_path : String) : String :=
  if path.startsWith "/" then path else base_path ++ "/" ++ path

/-- TestnetNodeGroupConfig namedtuple with its field defaults. -/
structure TestnetNodeGroupConfig where
  binary : Option String := none
  abci : Option String := none
  validators : Bool := true
  in_genesis : Bool := true
  power : Int := 1000
  service_state : String := "started"
  config_template : Option String := none
  use_seeds : List TestnetNodeRef := []
  persistent_peers : List TestnetNodeRef := []
  regions : List (String × TestnetRegionConfig) := []
  instance_type : String := "t3.medium"
  volume_size : Int := 8
  generate_tendermint_config : Bool := true
  custom_tendermint_config_root : Option String := none
deriving DecidableEq, Repr

/-- Raw node-group mapping of the YAML document; none means the key is
absent. Keys outside the namedtuple's field set would make the Python
namedtuple constructor raise and are outside this model. -/
structure NodeGroupDoc where
  binary : Option String := none
  abci : Option String := none
  validators : Option Bool := none
  in_genesis : Option Bool := none
  power : Option Int := none
  service_state : Option String := none
  config_template : Option String := none
  use_seeds : Option (List String) := none
  persistent_peers : Option (List String) := none
  regions : Option (List (List (String × Int))) := none
  instance_type : Option String := none
  volume_size : Option Int := none
  generate_tendermint_config : Option Bool := none
  custom_tendermint_config_root : Option String := none
deriving DecidableEq, Repr

/-- Config-template handling of load_node_group_config: a present, nonempty
template path is resolved against the base path and must exist. -/
def loadConfigTemplate (t? : Option String) (config_base_path ctx : String)
    (isfile : String → Bool) : Except String (Option String) :=
  match t? with
  | none => Except.ok none
  | some t =>
    if t.length > 0 then
      if isfile (resolve_relative_path t config_base_path) then
        Except.ok (some (resolve_relative_path t config_base_path))
      else
        Except.error ("Cannot find configuration template: " ++
          resolve_relative_path t config_base_path ++ " (" ++ ctx ++ ")")
    else Except.ok (some t)

/-- ABCI-name check of load_node_group_config: a declared abci key must name
a loaded ABCI configuration. -/
def abciCheck (a? : Option String) (abci_names : List String) (ctx : String) :
    Except String Unit :=
  match a? with
  | none => Except.ok ()
  | some a =>
    if a ∉ abci_names then
      Except.error ("Unrecognized ABCI configuration: " ++ a ++ " (" ++ ctx ++ ")")
    else Except.ok ()

/-- The namedtuple built by load_node_group_config from the document and the
parsed fields, with defaults for absent keys. -/
def mkNodeGroupConfig (doc : NodeGroupDoc) (regions : List (String × TestnetRegionConfig))
    (use_seeds persistent_peers : List TestnetNodeRef) (config_template : Option String) :
    TestnetNodeGroupConfig :=
  { binary := doc.binary, abci := doc.abci,
    validators := doc.validators.getD true, in_genesis := doc.in_genesis.getD true,
    power := doc.power.getD 1000, service_state := doc.service_state.getD "started",
    config_template := config_template, use_seeds := use_seeds,
    persistent_peers := persistent_peers, regions := regions,
    instance_type := doc.instance_type.getD "t3.medium",
    volume_size := doc.volume_size.getD 8,
    generate_tendermint_config := doc.generate_tendermint_config.getD true,
    custom_tendermint_config_root := doc.custom_tendermint_config_root }

/-- Embeds load_node_group_config: parses regions, use_seeds and
persistent_peers, resolves and checks a nonempty config template path,
checks a declared abci name against the loaded abci configurations, then
builds the namedtuple with defaults for absent keys. -/
def load_node_group_config (doc : NodeGroupDoc) (ctx : String) (config_base_path : String)
    (abci_names : List String) (isfile : String → Bool) :
    Except String TestnetNodeGroupConfig :=
  (parse_regions_list doc.regions ctx).bind (fun regions =>
    (as_testnet_node_refs (doc.use_seeds.getD []) ("in use_seeds, " ++ ctx)).bind
      (fun use_seeds =>
        (as_testnet_node_refs (doc.persistent_peers.getD [])
            ("in persistent_peers, " ++ ctx)).bind (fun persistent_peers =>
          (loadConfigTemplate doc.config_template config_base_path ctx isfile).bind
            (fun config_template =>
              (abciCheck doc.abci abci_names ctx).map (fun _ =>
                mkNodeGroupConfig doc regions use_seeds persistent_peers config_template)))))

/-- OrderedDict assignment: updates the value in place when the key exists
(keeping its original position), otherwise appends the pair. -/
def odSet {β : Type} (acc : List (String × β)) (k : String) (v : β) : List (String × β) :=
  if acc.any (fun p => p.1 = k) then acc.map (fun p => if p.1 = k then (k, v) else p)
  else acc ++ [(k, v)]

/-- Loop of as_ordered_dict: each item must be a mapping with exactly one
key/value pair; the value is transformed and assigned under the key. (The
source raises for an empty mapping explicitly and for a larger one through
tuple unpacking; both are failures here.) -/
def as_ordered_dict_aux {α β : Type} (f : α → String → Except String β) (ctx : String) :
    Nat → List (String × β) → List (List (String × α)) → Except String (List (String × β))
  | _, acc, [] => Except.ok acc
  | i, acc, item :: rest =>
    match item with
    | [(k, v)] =>
      (f v ("item " ++ natStr i ++ ", " ++ ctx)).bind
        (fun b => as_ordered_dict_aux f ctx (i + 1) (odSet acc k b) rest)
    | _ =>
      Except.error ("Expected item " ++ natStr i ++ " to be a single key/value pair (" ++
        ctx ++ ")")

/-- Embeds as_ordered_dict with a value transform. -/
def as_ordered_dict {α β : Type} (l : List (List (String × α))) (ctx : String)
    (f : α → String → Except String β) : Except String (List (String × β)) :=
  as_ordered_dict_aux f ctx 0 [] l

/-- TestnetSignalFXConfig namedtuple with its defaults. -/
structure TestnetSignalFXConfig where
  enabled : Bool := false
  api_token : Option String := none
  realm : Option String := none
deriving DecidableEq, Repr

/-- TestnetInfluxDBConfig namedtuple with its defaults. -/
structure TestnetInfluxDBConfig where
  enabled : Bool := false
  deploy : Bool := false
  region : String := "us-east-1"
  url : Option String := none
  password : Option String := none
  instance_type : String := "t2.micro"
  volume_size : Int := 10
deriving DecidableEq, Repr

structure TestnetMonitoringConfig where
  signalfx : TestnetSignalFXConfig
  influxdb : TestnetInfluxDBConfig
deriving DecidableEq, Repr

/-- Raw signalfx mapping of the document. -/
structure SignalFXDoc where
  enabled : Option Bool := none
  api_token : Option String := none
  realm : Option String := none
deriving DecidableEq, Repr

/-- Raw influxdb mapping of the document. -/
structure InfluxDBDoc where
  enabled : Option Bool := none
  deploy : Option Bool := none
  region : Option String := none
  url : Option String := none
  password : Option String := none
  instance_type : Option String := none
  volume_size : Option Int := none
deriving DecidableEq, Repr

/-- Raw monitoring mapping of the document. -/
structure MonitoringDoc where
  signalfx : Option SignalFXDoc := none
  influxdb : Option InfluxDBDoc := none
deriving DecidableEq, Repr

/-- Embeds load_influxdb_config: disabled (or absent "enabled") yields the
defaults; enabled requires a nonempty password. -/
def load_influxdb_config (doc : InfluxDBDoc) : Except String TestnetInfluxDBConfig :=
  if doc.enabled.getD false = false then Except.ok {}
  else if (doc.password.getD "").length = 0 then
    Except.error "Missing InfluxDB password in monitoring configuration"
  else
    Except.ok
      { enabled := doc.enabled.getD false, deploy := doc.deploy.getD false,
        region := doc.region.getD "us-east-1", url := doc.url,
        password := doc.password, instance_type := doc.instance_type.getD "t2.micro",
        volume_size := doc.volume_size.getD 10 }

/-- Embeds load_monitoring_config. -/
def load_monitoring_config (doc : MonitoringDoc) : Except String TestnetMonitoringConfig :=
  (load_influxdb_config (doc.influxdb.getD {})).map
    (fun influxdb =>
      { signalfx :=
          { enabled := (doc.signalfx.getD {}).enabled.getD false,
            api_token := (doc.signalfx.getD {}).api_token,
            realm := (doc.signalfx.getD {}).realm },
        influxdb := influxdb })

/-- TestnetABCIPlaybookConfig namedtuple with its defaults; extra_vars is an
opaque key/value mapping here. -/
structure TestnetABCIPlaybookConfig where
  playbook : Option String := none
  extra_vars : List (String × String) := []
deriving DecidableEq, Repr

/-- Raw ABCI playbook mapping of the document. -/
structure ABCIPlaybookDoc where
  playbook : Option String := none
  extra_vars : List (String × String) := []
deriving DecidableEq, Repr

structure TestnetABCIConfig where
  deploy : TestnetABCIPlaybookConfig
  start : TestnetABCIPlaybookConfig
  stop : TestnetABCIPlaybookConfig
deriving DecidableEq, Repr

/-- Raw ABCI app mapping of the document. -/
structure ABCIDoc where
  deploy : Option ABCIPlaybookDoc := none
  start : Option ABCIPlaybookDoc := none
  stop : Option ABCIPlaybookDoc := none
deriving DecidableEq, Repr

/-- Embeds load_abci_playbook_config: requires a playbook path whose resolved
form exists; the returned namedtuple keeps the original (unresolved) path,
as the source builds it from the unmodified input mapping. -/
def load_abci_playbook_config (doc : ABCIPlaybookDoc) (config_base_path ctx : String)
    (isfile : String → Bool) : Except String TestnetABCIPlaybookConfig :=
  match doc.playbook with
  | none =>
    Except.error ("Missing required field playbook in ABCI app configuration (" ++ ctx ++ ")")
  | some p =>
    if isfile (resolve_relative_path p config_base_path) then
      Except.ok { playbook := some p, extra_vars := doc.extra_vars }
    else
      Except.error ("Cannot find Ansible playbook: " ++
        resolve_relative_path p config_base_path ++ " (" ++ ctx ++ ")")

/-- Embeds load_abci_config: the deploy, start and stop stages are all
required. -/
def load_abci_config (doc : ABCIDoc) (config_base_path ctx : String)
    (isfile : String → Bool) : Except String TestnetABCIConfig := do
  let deploy ←
    match doc.deploy with
    | none =>
      Except.error ("Missing required field deploy in ABCI app configuration (" ++ ctx ++ ")")
    | some d => load_abci_playbook_config d config_base_path ("for deploy stage, " ++ ctx) isfile
  let start ←
    match doc.start with
    | none =>
      Except.error ("Missing required field start in ABCI app configuration (" ++ ctx ++ ")")
    | some d => load_abci_playbook_config d config_base_path ("for start stage, " ++ ctx) isfile
  let stop ←
    match doc.stop with
    | none =>
      Except.error ("Missing required field stop in ABCI app configuration (" ++ ctx ++ ")")
    | some d => load_abci_playbook_config d config_base_path ("for stop stage, " ++ ctx) isfile
  Except.ok { deploy := deploy, start := start, stop := stop }

/-- Embeds load_abci_configs over the abci mapping's items. -/
def load_abci_configs_aux (config_base_path : String) (isfile : String → Bool) :
    List (String × ABCIDoc) → Except String (List (String × TestnetABCIConfig))
  | [] => Except.ok []
  | (name, doc) :: rest =>
    (load_abci_config doc config_base_path ("in abci configuration for " ++ name) isfile).bind
      (fun c => (load_abci_configs_aux config_base_path isfile rest).map
        (fun cs => (name, c) :: cs))

def load_abci_configs (docs : List (String × ABCIDoc)) (config_base_path : String)
    (isfile : String → Bool) : Except String (List (String × TestnetABCIConfig)) :=
  load_abci_configs_aux config_base_path isfile docs

/-- TestnetTMBenchConfig namedtuple with its defaults. -/
structure TestnetTMBenchConfig where
  client_nodes : Int := 1
  targets : List String := []
  time : Int := 60
  broadcast_tx_method : String := "async"
  connections : Int := 1
  rate : Int := 1000
  size : Int := 100
deriving DecidableEq, Repr

/-- Raw load-test mapping of the document. -/
structure LoadTestDoc where
  method : Option String := none
  client_nodes : Option Int := none
  targets : Option (List String) := none
  time : Option Int := none
  broadcast_tx_method : Option String := none
  connections : Option Int := none
  rate : Option Int := none
  size : Option Int := none
deriving DecidableEq, Repr

/-- Embeds load_load_test_config: the method must name a known load-test
kind (only "tm-bench" exists). -/
def load_load_test_config (doc : LoadTestDoc) (ctx : String) :
    Except String TestnetTMBenchConfig :=
  if doc.method ≠ some "tm-bench" then Except.error ("Invalid method (" ++ ctx ++ ")")
  else
    Except.ok
      { client_nodes := doc.client_nodes.getD 1, targets := doc.targets.getD [],
        time := doc.time.getD 60,
        broadcast_tx_method := doc.broadcast_tx_method.getD "async",
        connections := doc.connections.getD 1, rate := doc.rate.getD 1000,
        size := doc.size.getD 100 }

/-- TestnetConfig namedtuple (without the unused tendermint_binaries field,
which load_testnet_config leaves at its default). -/
structure TestnetConfig where
  id : String
  monitoring : TestnetMonitoringConfig
  abci : List (String × TestnetABCIConfig)
  node_groups : List (String × TestnetNodeGroupConfig)
  load_tests : List (String × TestnetTMBenchConfig)
  home : String
deriving DecidableEq, Repr

/-- The parsed YAML document handed to load_testnet_config. -/
structure TestnetDoc where
  id : Option String := none
  monitoring : Option MonitoringDoc := none
  abci : Option (List (String × ABCIDoc)) := none
  node_groups : Option (List (List (String × NodeGroupDoc))) := none
  load_tests : Option (List (List (String × LoadTestDoc))) := none
deriving DecidableEq, Repr

/-- Embeds load_node_groups_config. -/
def load_node_groups_config (cfg_list : List (List (String × NodeGroupDoc)))
    (config_base_path : String) (abci_names : List String) (isfile : String → Bool) :
    Except String (List (String × TestnetNodeGroupConfig)) :=
  as_ordered_dict cfg_list "in node_groups configuration"
    (fun doc ctx => load_node_group_config doc ctx config_base_path abci_names isfile)

/-- Embeds load_load_tests_config. -/
def load_load_tests_config (cfg_list : List (List (String × LoadTestDoc))) :
    Except String (List (String × TestnetTMBenchConfig)) :=
  as_ordered_dict cfg_list "in load_tests configuration" load_load_test_config

/-- Body of load_testnet_config once the id key is known to be present. -/
def load_testnet_config_body (id : String) (doc : TestnetDoc) (config_base_path : String)
    (isfile : String → Bool) (home : String) : Except String TestnetConfig :=
  (load_abci_configs (doc.abci.getD []) config_base_path isfile).bind (fun abci =>
    (load_monitoring_config (doc.monitoring.getD {})).bind (fun monitoring =>
      (load_node_groups_config (doc.node_groups.getD []) config_base_path
          (abci.map Prod.fst) isfile).bind (fun node_groups =>
        (load_load_tests_config (doc.load_tests.getD [])).map (fun load_tests =>
          { id := id, monitoring := monitoring, abci := abci, node_groups := node_groups,
            load_tests := load_tests, home := home }))))

/-- Embeds load_testnet_config from the parsed document onward: requires the
id key, loads the abci configurations, then monitoring, node groups and load
tests. There is no further validation pass: in particular the use_seeds and
persistent_peers references of the node groups are never resolved against
the set of loaded group names. -/
def load_testnet_config (doc : TestnetDoc) (config_base_path : String)
    (isfile : String → Bool) (home : String) : Except String TestnetConfig :=
  match doc.id with
  | none => Except.error "Missing required id parameter in configuration file"
  | some id => load_testnet_config_body id doc config_base_path isfile home

/-!
Host resolution (TestnetHostRef, node_to_host_refs). Provisioning outputs
(the per-group output-vars.yaml files) are modelled as a lookup function
returning the group's ordered inventory, none when the file is missing.
Log lines emitted at info level are collected in the result.
-/

structure TestnetHostRef where
  group : String
  id : Int
  hostname : String
deriving DecidableEq, Repr

/-- Decimal string of an Int, for messages. -/
def intStr (i : Int) : String :=
  String.mk (intToDecimal i)

/-- Inner loop of the whole-group branch of node_to_host_refs: appends every
not-yet-seen hostname of the inventory with its ordinal index. -/
def addGroupHosts (group : String) :
    List String → Nat → List TestnetHostRef → List String →
      (List TestnetHostRef × List String)
  | [], _, acc, seen => (acc, seen)
  | hostn :: t, i, acc, seen =>
    if hostn ∈ seen then addGroupHosts group t (i + 1) acc seen
    else addGroupHosts group t (i + 1) (acc ++ [⟨group, (i : Int), hostn⟩]) (seen ++ [hostn])

/-- Loop of node_to_host_refs over the references, carrying the hostnames
accumulator, the seen-hostname set and the log lines. -/
def node_to_host_refs_aux (outputs : String → Option (List String)) (fail_on_missing : Bool) :
    List TestnetNodeRef → List TestnetHostRef → List String → List String →
      Except String (List TestnetHostRef × List String)
  | [], acc, _, logs => Except.ok (acc, logs)
  | ref :: rest, acc, seen, logs =>
    match outputs ref.group with
    | none =>
      if fail_on_missing then
        Except.error ("Missing output variables for node group " ++ ref.group ++
          " - has this node group been deployed yet?")
      else
        node_to_host_refs_aux outputs fail_on_missing rest acc seen
          (logs ++ ["Node group " ++ ref.group ++ " has not yet been deployed - skipping"])
    | some inv =>
      match ref.id with
      | none =>
        let step := addGroupHosts ref.group inv 0 acc seen
        node_to_host_refs_aux outputs fail_on_missing rest step.1 step.2 logs
      | some k =>
        if k < 0 ∨ (inv.length : Int) ≤ k then
          let msg := "Invalid ID " ++ intStr k ++ " for host in node group " ++ ref.group ++
            " (this group has " ++ natStr inv.length ++ " entries)"
          if fail_on_missing then Except.error msg
          else
            node_to_host_refs_aux outputs fail_on_missing rest acc seen
              (logs ++ [msg ++ " - skipping"])
        else
          let hostn := inv.getD k.toNat ""
          if hostn ∈ seen then
            node_to_host_refs_aux outputs fail_on_missing rest acc seen logs
          else
            node_to_host_refs_aux outputs fail_on_missing rest
              (acc ++ [⟨ref.group, k, hostn⟩]) (seen ++ [hostn]) logs

/-- Embeds node_to_host_refs. The first component of a successful result is
the resolved host list, the second the skip log lines. -/
def node_to_host_refs (outputs : String → Option (List String))
    (refs : List TestnetNodeRef) (fail_on_missing : Bool) :
    Except String (List TestnetHostRef × List String) :=
  node_to_host_refs_aux outputs fail_on_missing refs [] [] []

/-!
Identity engine (get_ed25519_pub_key, ed25519_pub_key_to_id,
tendermint_peer_id). The source receives the private key base64-encoded and
decodes it first; the model's input is the decoded byte string.
-/

/-- Embeds get_ed25519_pub_key from the decoded private-key bytes onward:
the key must be exactly 64 bytes and its second half (the public key) must
not be all zero; on success the second half is returned. -/
def get_ed25519_pub_key (priv_key_bytes : List Nat) (ctx : String) :
    Except String (List Nat) :=
  if priv_key_bytes.length ≠ 64 then
    Except.error ("Invalid ed25519 private key (" ++ ctx ++ ")")
  else if (priv_key_bytes.drop 32).sum = 0 then
    Except.error ("Public key bytes in ed25519 private key not initialized (" ++ ctx ++ ")")
  else
    Except.ok (priv_key_bytes.drop 32)

/-- Embeds tendermint_peer_id: address@host:26656, or host:26656 when no
address is given. -/
def tendermint_peer_id (host : String) (address : Option String) : String :=
  match address with
  | some a => a ++ "@" ++ host ++ ":26656"
  | none => host ++ ":26656"

/-!
SHA-256 over byte lists, embedding the hashlib.sha256 call of
ed25519_pub_key_to_id. Words are Nat values reduced modulo 2 ^ 32.
-/

/-- Reduces a word modulo 2 ^ 32. -/
def w32 (n : Nat) : Nat := n % 4294967296

/-- Right rotation of a 32-bit word. -/
def rotr32 (x n : Nat) : Nat := w32 ((x >>> n) ||| (x <<< (32 - n)))

def sha_ch (x y z : Nat) : Nat := (x &&& y) ^^^ ((x ^^^ 4294967295) &&& z)

def sha_maj (x y z : Nat) : Nat := (x &&& y) ^^^ (x &&& z) ^^^ (y &&& z)

def bsig0 (x : Nat) : Nat := rotr32 x 2 ^^^ rotr32 x 13 ^^^ rotr32 x 22

def bsig1 (x : Nat) : Nat := rotr32 x 6 ^^^ rotr32 x 11 ^^^ rotr32 x 25

def ssig0 (x : Nat) : Nat := rotr32 x 7 ^^^ rotr32 x 18 ^^^ (x >>> 3)

def ssig1 (x : Nat) : Nat := rotr32 x 17 ^^^ rotr32 x 19 ^^^ (x >>> 10)

/-- The 64 SHA-256 round constants of FIPS 180-4, in decimal. -/
def shaK : List Nat :=
  [1116352408, 1899447441, 3049323471, 3921009573, 961987163,
   1508970993, 2453635748, 2870763221, 3624381080, 310598401,
   607225278, 1426881987, 1925078388, 2162078206, 2614888103,
   3248222580, 3835390401, 4022224774, 264347078, 604807628,
   770255983, 1249150122, 1555081692, 1996064986, 2554220882,
   2821834349, 2952996808, 3210313671, 3336571891, 3584528711,
   113926993, 338241895, 666307205, 773529912, 1294757372,
   1396182291, 1695183700, 1986661051, 2177026350, 2456956037,
   2730485921, 2820302411, 3259730800, 3345764771, 3516065817,
   3600352804, 4094571909, 275423344, 430227734, 506948616,
   659060556, 883997877, 958139571, 1322822218, 1537002063,
   1747873779, 1955562222, 2024104815, 2227730452, 2361852424,
   2428436474, 2756734187, 3204031479, 3329325298]

/-- The eight 32-bit working registers. -/
structure Sha256State where
  a : Nat
  b : Nat
  c : Nat
  d : Nat
  e : Nat
  f : Nat
  g : Nat
  h : Nat
deriving DecidableEq, Repr

def sha256Init : Sha256State :=
  { a := 1779033703, b := 3144134277, c := 1013904242, d := 2773480762,
    e := 1359893119, f := 2600822924, g := 528734635, h := 1541459225 }

/-- One compression round, consuming a (k, w) constant/schedule pair. -/
def sha256Round (st : Sha256State) (kw : Nat × Nat) : Sha256State :=
  let t1 := w32 (st.h + bsig1 st.e + sha_ch st.e st.f st.g + kw.1 + kw.2)
  let t2 := w32 (bsig0 st.a + sha_maj st.a st.b st.c)
  { a := w32 (t1 + t2), b := st.a, c := st.b, d := st.c,
    e := w32 (st.d + t1), f := st.e, g := st.f, h := st.g }

/-- Big-endian 32-bit words of a byte list (leftover bytes are dropped; a
64-byte block yields exactly 16 words). -/
def toWords : List Nat → List Nat
  | b0 :: b1 :: b2 :: b3 :: rest =>
    (((b0 * 256 + b1) * 256 + b2) * 256 + b3) :: toWords rest
  | _ => []

/-- Extends the 16-word schedule by the given number of words. -/
def scheduleExt : Nat → List Nat → List Nat
  | 0, ws => ws
  | n + 1, ws =>
    let len := ws.length
    let nw := w32 (ssig1 (ws.getD (len - 2) 0) + ws.getD (len - 7) 0 +
      ssig0 (ws.getD (len - 15) 0) + ws.getD (len - 16) 0)
    scheduleExt n (ws ++ [nw])

/-- Compression of one 64-byte block into the running state. -/
def sha256Compress (st : Sha256State) (block : List Nat) : Sha256State :=
  let ws := scheduleExt 48 (toWords block)
  let fin := (shaK.zip ws).foldl sha256Round st
  { a := w32 (st.a + fin.a), b := w32 (st.b + fin.b), c := w32 (st.c + fin.c),
    d := w32 (st.d + fin.d), e := w32 (st.e + fin.e), f := w32 (st.f + fin.f),
    g := w32 (st.g + fin.g), h := w32 (st.h + fin.h) }

/-- Big-endian byte rendering of a value on the given number of bytes. -/
def beBytes : Nat → Nat → List Nat
  | 0, _ => []
  | k + 1, n => beBytes k (n / 256) ++ [n % 256]

/-- SHA-256 message padding: 0x80, zeros to 56 mod 64, then the 64-bit
big-endian bit length. -/
def sha256Pad (msg : List Nat) : List Nat :=
  msg ++ [128] ++ List.replicate ((119 - msg.length % 64) % 64) 0 ++
    beBytes 8 ((8 * msg.length) % 18446744073709551616)

/-- Fuel-driven 64-byte chunking (fuel at least the list length). -/
def chunks64Aux : Nat → List Nat → List (List Nat)
  | 0, _ => []
  | _, [] => []
  | fuel + 1, l => l.take 64 :: chunks64Aux fuel (l.drop 64)

/-- The four big-endian bytes of a 32-bit word. -/
def wordBytes (w : Nat) : List Nat :=
  [(w / 16777216) % 256, (w / 65536) % 256, (w / 256) % 256, w % 256]

/-- Digest bytes of a final state. -/
def stateBytes (st : Sha256State) : List Nat :=
  wordBytes st.a ++ wordBytes st.b ++ wordBytes st.c ++ wordBytes st.d ++
    wordBytes st.e ++ wordBytes st.f ++ wordBytes st.g ++ wordBytes st.h

/-- SHA-256 digest (32 bytes) of a byte list. -/
def sha256 (msg : List Nat) : List Nat :=
  let padded := sha256Pad msg
  stateBytes ((chunks64Aux padded.length padded).foldl sha256Compress sha256Init)

/-- Fuel-driven big-endian lowercase-hex rendering of a natural number. -/
def natToHexAux : Nat → Nat → List Char
  | 0, _ => []
  | fuel + 1, n =>
    if n < 16 then [digitChar n]
    else natToHexAux fuel (n / 16) ++ [digitChar (n % 16)]

/-- Lowercase-hex rendering, as in Python's "%x". -/
def natToHex (n : Nat) : List Char :=
  natToHexAux (n + 1) n

/-- Python's "%.2x": lowercase hex zero-padded to at least two digits. -/
def pyHex2 (b : Nat) : List Char :=
  List.replicate (2 - (natToHex b).length) '0' ++ natToHex b

/-- Embeds ed25519_pub_key_to_id: the first 20 bytes of the SHA-256 digest
of the public key, each rendered with "%.2x" and concatenated. -/
def ed25519_pub_key_to_id (pub_key : List Nat) : String :=
  String.mk ((((sha256 pub_key).take 20).map pyHex2).flatten)

/-!
Genesis and peer-set reconciler (tendermint_finalize_config, unique_peer_ids)
with the node-configuration records it consumes. The TOML configuration is
modelled by the fields the reconciler reads and writes (moniker and the p2p
peer strings). Python set values are duplicate-free lists in first-insertion
order; only their contents are claim-relevant, since Python's set iteration
order is unspecified.
-/

structure TendermintNodeKey where
  type : String
  value : String
deriving DecidableEq, Repr

structure TendermintNodePrivValidatorKey where
  address : String
  pub_key : TendermintNodeKey
  priv_key : TendermintNodeKey
deriving DecidableEq, Repr

structure P2PConfig where
  persistent_peers : String := ""
  seeds : String := ""
deriving DecidableEq, Repr

/-- The slice of a node's config.toml document that the reconciler touches. -/
structure TomlConfig where
  moniker : String
  p2p : P2PConfig
deriving DecidableEq, Repr

structure TendermintNodeConfig where
  config_path : String
  config : TomlConfig
  priv_validator_key : TendermintNodePrivValidatorKey
  node_key : TendermintNodeKey
  peer_id : String
deriving DecidableEq, Repr

structure GenesisValidator where
  address : String
  pub_key_type : String
  pub_key_value : String
  power : String
  name : String
deriving DecidableEq, Repr

structure GenesisDoc where
  genesis_time : String
  chain_id : String
  validators : List GenesisValidator
  app_hash : String
deriving DecidableEq, Repr

/-- Python set insertion: appends the element unless already present. -/
def setAdd (s : List String) (x : String) : List String :=
  if x ∈ s then s else s ++ [x]

/-- Python list indexing: negative indices count from the end; out of range
raises IndexError. -/
def pythonGet {α : Type} (l : List α) (i : Int) : Except String α :=
  let j := if i < 0 then i + l.length else i
  if h : 0 ≤ j ∧ j < (l.length : Int) then
    Except.ok (l.get ⟨j.toNat, by omega⟩)
  else
    Except.error "IndexError: list index out of range"

/-- Python dict lookup: raises KeyError when the key is absent. -/
def dictGet {α : Type} (d : List (String × α)) (k : String) : Except String α :=
  match List.lookup k d with
  | some v => Except.ok v
  | none => Except.error ("KeyError: " ++ k)

/-- Loop of unique_peer_ids: a whole-group reference adds every node's peer
id, an indexed reference adds the indexed node's peer id. -/
def unique_peer_ids_aux (tc : List (String × List TendermintNodeConfig)) :
    List TestnetNodeRef → List String → Except String (List String)
  | [], acc => Except.ok acc
  | ref :: rest, acc =>
    (dictGet tc ref.group).bind (fun nodes =>
      match ref.id with
      | none =>
        unique_peer_ids_aux tc rest (nodes.foldl (fun s n => setAdd s n.peer_id) acc)
      | some i =>
        (pythonGet nodes i).bind
          (fun node => unique_peer_ids_aux tc rest (setAdd acc node.peer_id)))

/-- Embeds unique_peer_ids. -/
def unique_peer_ids (refs_list : List TestnetNodeRef)
    (tc : List (String × List TendermintNodeConfig)) : Except String (List String) :=
  unique_peer_ids_aux tc refs_list []

/-- JSON string escaping as json.dump performs it with the default
ensure_ascii=True, for characters of the basic multilingual plane
(surrogate-pair escapes for larger code points are not modelled; no claim
depends on them). -/
def jsonEscapeChar (c : Char) : List Char :=
  if c = '"' then ['\\', '"']
  else if c = '\\' then ['\\', '\\']
  else if c = '\n' then ['\\', 'n']
  else if c = '\t' then ['\\', 't']
  else if c = '\r' then ['\\', 'r']
  else if c.toNat < 32 ∨ c.toNat > 126 then
    '\\' :: 'u' :: (List.replicate (4 - (natToHex c.toNat).length) '0' ++ natToHex c.toNat)
  else [c]

/-- A JSON string literal. -/
def jsonStr (s : String) : String :=
  "\"" ++ String.mk ((s.toList.map jsonEscapeChar).flatten) ++ "\""

/-- One validator entry as json.dump(obj, indent=2) lays it out inside the
validators array. -/
def serializeValidator (v : GenesisValidator) : String :=
  "    \x7b\n      \"address\": " ++ jsonStr v.address ++
    ",\n      \"pub_key\": \x7b\n        \"type\": " ++ jsonStr v.pub_key_type ++
    ",\n        \"value\": " ++ jsonStr v.pub_key_value ++
    "\n      \x7d,\n      \"power\": " ++ jsonStr v.power ++
    ",\n      \"name\": " ++ jsonStr v.name ++ "\n    \x7d"

/-- The genesis document as json.dump(genesis_doc, f, indent=2) serializes
it: the byte content written to every node's genesis.json. -/
def serializeGenesis (gd : GenesisDoc) : String :=
  "\x7b\n  \"genesis_time\": " ++ jsonStr gd.genesis_time ++
    ",\n  \"chain_id\": " ++ jsonStr gd.chain_id ++
    ",\n  \"validators\": " ++
    (if gd.validators.isEmpty then "[]"
     else "[\n" ++ String.intercalate ",\n" (gd.validators.map serializeValidator) ++
       "\n  ]") ++
    ",\n  \"app_hash\": " ++ jsonStr gd.app_hash ++ "\n\x7d"

/-- The decimal string Python's "%d" produces for the voting power. -/
def powerStr (power : Int) : String :=
  String.mk (intToDecimal power)

/-- The updated config.toml content for one node: the group's peer-id sets
with the node's own peer id removed, comma-joined. -/
def updatedToml (pps sds : List String) (node : TendermintNodeConfig) : TomlConfig :=
  { node.config with
    p2p :=
      { persistent_peers :=
          String.intercalate "," (pps.filter (fun p => p ≠ node.peer_id)),
        seeds := String.intercalate "," (sds.filter (fun p => p ≠ node.peer_id)) } }

/-- Per-node work of the group loop of tendermint_finalize_config: the
config.toml write (self-excluded comma-joined peer strings) and the genesis
validator entries this node contributes (one when the group is flagged
validator and in-genesis, none otherwise). -/
def processNode (pps sds : List String) (gcfg : TestnetNodeGroupConfig)
    (node : TendermintNodeConfig) : (String × TomlConfig) × List GenesisValidator :=
  ((node.config_path ++ "/config.toml", updatedToml pps sds node),
   if gcfg.validators && gcfg.in_genesis then
     [{ address := node.priv_validator_key.address,
        pub_key_type := node.priv_validator_key.pub_key.type,
        pub_key_value := node.priv_validator_key.pub_key.value,
        power := powerStr gcfg.power,
        name := node.config.moniker }]
   else [])

/-- First pass of tendermint_finalize_config over the node groups in declared
order: computes each group's peer-id sets, the config.toml writes of its
nodes, and the accumulated genesis validator entries. -/
def processGroups (tc : List (String × List TendermintNodeConfig)) :
    List (String × TestnetNodeGroupConfig) →
      Except String (List (String × TomlConfig) × List GenesisValidator)
  | [] => Except.ok ([], [])
  | (name, gcfg) :: rest =>
    (unique_peer_ids gcfg.persistent_peers tc).bind (fun pps =>
      (unique_peer_ids gcfg.use_seeds tc).bind (fun sds =>
        (dictGet tc name).bind (fun nodes =>
          (processGroups tc rest).map (fun tail =>
            ((nodes.map (fun n => (processNode pps sds gcfg n).1)) ++ tail.1,
             (nodes.map (fun n => (processNode pps sds gcfg n).2)).flatten ++ tail.2)))))

/-- Second pass of tendermint_finalize_config: writes the serialized genesis
document to every node of every group, in the same declared order. -/
def genesisWritePass (tc : List (String × List TendermintNodeConfig)) (gbytes : String) :
    List (String × TestnetNodeGroupConfig) → Except String (List (String × String))
  | [] => Except.ok []
  | (name, _) :: rest =>
    (dictGet tc name).bind (fun nodes =>
      (genesisWritePass tc gbytes rest).map (fun tail =>
        nodes.map (fun n => (n.config_path ++ "/genesis.json", gbytes)) ++ tail))

/-- Result of one finalize pass: the genesis document and the file writes it
performed. -/
structure FinalizeResult where
  genesis_doc : GenesisDoc
  config_writes : List (String × TomlConfig)
  genesis_writes : List (String × String)
deriving DecidableEq, Repr

/-- The genesis document as tendermint_finalize_config initializes it: the
timestamp taken once at the start of the pass, the configuration's id as
chain id, the collected validator entries, and an empty app hash. -/
def mkGenesisDoc (now chain_id : String) (vals : List GenesisValidator) : GenesisDoc :=
  { genesis_time := now, chain_id := chain_id, validators := vals, app_hash := "" }

/-- Embeds tendermint_finalize_config. The genesis timestamp string (taken
once from the clock at the start of the pass) is the now argument; the
genesis document is assembled around the validator entries collected during
the group loop and then written verbatim to every node. -/
def tendermint_finalize_config (now : String) (cfg : TestnetConfig)
    (tc : List (String × List TendermintNodeConfig)) : Except String FinalizeResult :=
  (processGroups tc cfg.node_groups).bind (fun pr =>
    (genesisWritePass tc (serializeGenesis (mkGenesisDoc now cfg.id pr.2))
        cfg.node_groups).map (fun gws =>
      { genesis_doc := mkGenesisDoc now cfg.id pr.2, config_writes := pr.1,
        genesis_writes := gws }))

/-!
Supporting lemmas for the claim theorems.
-/

theorem except_map_ok {α β : Type} (x : α) (f : α → β) :
    (Except.ok x : Except String α).map f = Except.ok (f x) := rfl

theorem natToHexAux_succ (fuel n : Nat) :
    natToHexAux (fuel + 1) n =
      if n < 16 then [digitChar n]
      else natToHexAux fuel (n / 16) ++ [digitChar (n % 16)] := rfl

theorem natToHex_lt16 (n : Nat) (h : n < 16) : natToHex n = [digitChar n] := by
  show natToHexAux (n + 1) n = _
  rw [natToHexAux_succ, if_pos h]

theorem natToHex_byte (n : Nat) (h16 : ¬ n < 16) (h : n < 256) :
    natToHex n = [digitChar (n / 16), digitChar (n % 16)] := by
  show natToHexAux (n + 1) n = _
  rw [natToHexAux_succ, if_neg h16]
  cases n with
  | zero => omega
  | succ m =>
    rw [natToHexAux_succ, if_pos (by omega)]
    rfl

theorem pyHex2_byte (b : Nat) (h : b < 256) :
    pyHex2 b = [digitChar (b / 16), digitChar (b % 16)] := by
  by_cases h16 : b < 16
  · rw [pyHex2, natToHex_lt16 b h16, Nat.div_eq_of_lt h16, Nat.mod_eq_of_lt h16]
    rfl
  · rw [pyHex2, natToHex_byte b h16 h]
    rfl

theorem pyHex2_length (b : Nat) (h : b < 256) : (pyHex2 b).length = 2 := by
  rw [pyHex2_byte b h]
  rfl

theorem digitChar_hex_mem (n : Nat) (h : n < 16) :
    digitChar n ∈ "0123456789abcdef".toList := by
  interval_cases n <;> decide

theorem pyHex2_chars (b : Nat) (h : b < 256) :
    ∀ c ∈ pyHex2 b, c ∈ "0123456789abcdef".toList := by
  rw [pyHex2_byte b h]
  intro c hc
  rcases List.mem_cons.mp hc with h1 | h2
  · exact h1 ▸ digitChar_hex_mem _ (by omega)
  · rw [List.mem_singleton] at h2
    exact h2 ▸ digitChar_hex_mem _ (by omega)

theorem wordBytes_lt (w : Nat) : ∀ b ∈ wordBytes w, b < 256 := by
  intro b hb
  simp only [wordBytes, List.mem_cons, List.not_mem_nil, or_false] at hb
  rcases hb with rfl | rfl | rfl | rfl <;> omega

theorem stateBytes_lt (st : Sha256State) : ∀ b ∈ stateBytes st, b < 256 := by
  intro b hb
  simp only [stateBytes, List.mem_append] at hb
  rcases hb with ((((((h | h) | h) | h) | h) | h) | h) | h <;> exact wordBytes_lt _ b h

theorem stateBytes_length (st : Sha256State) : (stateBytes st).length = 32 := rfl

theorem sha256_length (msg : List Nat) : (sha256 msg).length = 32 :=
  stateBytes_length _

theorem sha256_lt (msg : List Nat) : ∀ b ∈ sha256 msg, b < 256 :=
  fun b hb => stateBytes_lt _ b hb

theorem flatten_pyHex2_length :
    ∀ (bytes : List Nat), (∀ b ∈ bytes, b < 256) →
      ((bytes.map pyHex2).flatten).length = 2 * bytes.length := by
  intro bytes
  induction bytes with
  | nil => intro _; rfl
  | cons b t ih =>
    intro h
    simp only [List.map_cons, List.flatten_cons, List.length_append, List.length_cons]
    rw [ih (fun x hx => h x (by simp [hx])), pyHex2_length b (h b (by simp))]
    omega

theorem flatten_pyHex2_chars :
    ∀ (bytes : List Nat), (∀ b ∈ bytes, b < 256) →
      ∀ c ∈ (bytes.map pyHex2).flatten, c ∈ "0123456789abcdef".toList := by
  intro bytes
  induction bytes with
  | nil => intro _ c hc; cases hc
  | cons b t ih =>
    intro h c hc
    simp only [List.map_cons, List.flatten_cons, List.mem_append] at hc
    rcases hc with h1 | h2
    · exact pyHex2_chars b (h b (by simp)) c h1
    · exact ih (fun x hx => h x (by simp [hx])) c h2

/-!
Claim theorems.
-/

/-- C6: for every public-key byte string, ed25519_pub_key_to_id returns the
lowercase hexadecimal rendering (no separators) of the first 20 bytes of the
SHA-256 hash of the public key, a 40-character string over the lowercase hex
alphabet, and is deterministic (in this pure embedding, two computations on
the same bytes are the same term). -/
theorem C6_peer_id_hex (pub_key : List Nat) :
    (ed25519_pub_key_to_id pub_key).toList =
      (((sha256 pub_key).take 20).map pyHex2).flatten ∧
    (ed25519_pub_key_to_id pub_key).length = 40 ∧
    ((ed25519_pub_key_to_id pub_key).toList.all
      (fun c => c ∈ "0123456789abcdef".toList)) = true ∧
    ed25519_pub_key_to_id pub_key = ed25519_pub_key_to_id pub_key := by
  have hlt : ∀ b ∈ (sha256 pub_key).take 20, b < 256 :=
    fun b hb => sha256_lt pub_key b (List.take_subset _ _ hb)
  have hlen20 : ((sha256 pub_key).take 20).length = 20 := by
    rw [List.length_take, sha256_length]
    rfl
  refine ⟨rfl, ?_, ?_, rfl⟩
  · show (((sha256 pub_key).take 20).map pyHex2).flatten.length = 40
    rw [flatten_pyHex2_length _ hlt, hlen20]
  · rw [List.all_eq_true]
    intro c hc
    exact decide_eq_true (flatten_pyHex2_chars _ hlt c hc)

set_option maxRecDepth 10000 in
/-- Validation of the SHA-256 embedding against standard test vectors
(sha256 of "abc", of the empty string, and of 64 times "a"). -/
theorem sha256_test_vectors :
    ed25519_pub_key_to_id [97, 98, 99] = "ba7816bf8f01cfea414140de5dae2223b00361a3" ∧
    String.mk ((sha256 []).map pyHex2).flatten =
      "e3b0c44298fc1c149afbf4c8996fb92427ae41e4649b934ca495991b7852b855" ∧
    String.mk ((sha256 (List.replicate 64 97)).map pyHex2).flatten =
      "ffe054fe7ae0cb6dc65c3af9b61d5209f439851db43d0ba5997337df154668eb" :=
  ⟨by decide, by decide, by decide⟩

/-- C7: get_ed25519_pub_key raises exactly when the decoded key is not 64
bytes long or its second half (bytes 32..64) is all zero; otherwise it
returns exactly bytes 32..64 of the key (the 32-byte public key). -/
theorem C7_derive_pub_key (bs : List Nat) (ctx : String) :
    (isOkE (get_ed25519_pub_key bs ctx) = false ↔
      bs.length ≠ 64 ∨ ∀ b ∈ bs.drop 32, b = 0) ∧
    ∀ pk, get_ed25519_pub_key bs ctx = Except.ok pk →
      pk = bs.drop 32 ∧ pk.length = 32 := by
  unfold get_ed25519_pub_key
  by_cases h1 : bs.length ≠ 64
  · rw [if_pos h1]
    refine ⟨iff_of_true rfl (Or.inl h1), ?_⟩
    intro pk hpk
    cases hpk
  · rw [if_neg h1]
    push_neg at h1
    by_cases h2 : (bs.drop 32).sum = 0
    · rw [if_pos h2]
      refine ⟨iff_of_true rfl (Or.inr (List.sum_eq_zero_iff.mp h2)), ?_⟩
      intro pk hpk
      cases hpk
    · rw [if_neg h2]
      constructor
      · constructor
        · intro hf
          cases hf
        · rintro (hlen | hzero)
          · exact absurd h1 hlen
          · exact absurd (List.sum_eq_zero_iff.mpr hzero) h2
      · intro pk hpk
        cases hpk
        refine ⟨rfl, ?_⟩
        rw [List.length_drop, h1]

/-- Witness for C7 at a concrete 64-byte key with a nonzero second half. -/
theorem C7_witness :
    (List.replicate 32 (7 : Nat)) =
        ((List.replicate 32 (0 : Nat) ++ List.replicate 32 7).drop 32) ∧
      (List.replicate 32 (7 : Nat)).length = 32 :=
  (C7_derive_pub_key (List.replicate 32 0 ++ List.replicate 32 7) "node key").2
    (List.replicate 32 7) (by decide)

/-- C8: for every reference string of the form g[k] (valid group name g,
canonically rendered decimal integer k) and every string of the form g,
parsing with as_testnet_node_ref followed by formatting with
testnet_node_ref_to_str yields the original string. -/
theorem C8_round_trip (g ctx : String) (k : Int)
    (h : g.toList.all ALLOWED_GROUP_NAME_CHARSET = true) :
    (as_testnet_node_ref g ctx).map testnet_node_ref_to_str = Except.ok g ∧
    (as_testnet_node_ref (g ++ "[" ++ String.mk (intToDecimal k) ++ "]") ctx).map
        testnet_node_ref_to_str =
      Except.ok (g ++ "[" ++ String.mk (intToDecimal k) ++ "]") := by
  constructor
  · rw [as_testnet_node_ref_whole_group g ctx h]
    rfl
  · rw [as_testnet_node_ref_indexed g ctx k h]
    rfl

/-- Witness for C8 at group "validators" and index 12. -/
theorem C8_witness :
    (as_testnet_node_ref "validators" "c").map testnet_node_ref_to_str =
        Except.ok "validators" ∧
      (as_testnet_node_ref ("validators" ++ "[" ++ String.mk (intToDecimal 12) ++ "]")
          "c").map testnet_node_ref_to_str =
        Except.ok ("validators" ++ "[" ++ String.mk (intToDecimal 12) ++ "]") :=
  C8_round_trip "validators" "c" 12 (by decide)

-- Lemmas about node_to_host_refs.

theorem aux_nil_hosts (outputs : String → Option (List String)) (fail : Bool)
    (acc : List TestnetHostRef) (seen logs : List String) :
    node_to_host_refs_aux outputs fail [] acc seen logs = Except.ok (acc, logs) := rfl

theorem aux_skip_missing (outputs : String → Option (List String)) (ref : TestnetNodeRef)
    (rest : List TestnetNodeRef) (acc : List TestnetHostRef) (seen logs : List String)
    (h : outputs ref.group = none) :
    node_to_host_refs_aux outputs false (ref :: rest) acc seen logs =
      node_to_host_refs_aux outputs false rest acc seen
        (logs ++ ["Node group " ++ ref.group ++ " has not yet been deployed - skipping"]) := by
  simp only [node_to_host_refs_aux, h, Bool.false_eq_true, if_false]

theorem aux_error_missing (outputs : String → Option (List String)) (ref : TestnetNodeRef)
    (rest : List TestnetNodeRef) (acc : List TestnetHostRef) (seen logs : List String)
    (h : outputs ref.group = none) :
    node_to_host_refs_aux outputs true (ref :: rest) acc seen logs =
      Except.error ("Missing output variables for node group " ++ ref.group ++
        " - has this node group been deployed yet?") := by
  simp only [node_to_host_refs_aux, h, if_true]

theorem aux_all_missing (outputs : String → Option (List String)) :
    ∀ (refs : List TestnetNodeRef) (acc : List TestnetHostRef) (seen logs : List String),
      (∀ ref ∈ refs, outputs ref.group = none) →
      node_to_host_refs_aux outputs false refs acc seen logs =
        Except.ok (acc, logs ++ refs.map
          (fun ref => "Node group " ++ ref.group ++ " has not yet been deployed - skipping")) := by
  intro refs
  induction refs with
  | nil => intro acc seen logs _; simp [aux_nil_hosts]
  | cons r rest ih =>
    intro acc seen logs h
    rw [aux_skip_missing outputs r rest acc seen logs (h r (by simp)),
      ih acc seen _ (fun ref hm => h ref (by simp [hm]))]
    simp [List.append_assoc]

theorem aux_out_of_range_error (outputs : String → Option (List String)) (g : String)
    (inv : List String) (k : Int) (rest : List TestnetNodeRef) (acc : List TestnetHostRef)
    (seen logs : List String) (hout : outputs g = some inv)
    (hk : k < 0 ∨ (inv.length : Int) ≤ k) :
    node_to_host_refs_aux outputs true ({ group := g, id := some k } :: rest) acc seen logs =
      Except.error ("Invalid ID " ++ intStr k ++ " for host in node group " ++ g ++
        " (this group has " ++ natStr inv.length ++ " entries)") := by
  simp only [node_to_host_refs_aux, hout, if_pos hk, if_true]

theorem aux_out_of_range_skip (outputs : String → Option (List String)) (g : String)
    (inv : List String) (k : Int) (rest : List TestnetNodeRef) (acc : List TestnetHostRef)
    (seen logs : List String) (hout : outputs g = some inv)
    (hk : k < 0 ∨ (inv.length : Int) ≤ k) :
    node_to_host_refs_aux outputs false ({ group := g, id := some k } :: rest) acc seen logs =
      node_to_host_refs_aux outputs false rest acc seen
        (logs ++ ["Invalid ID " ++ intStr k ++ " for host in node group " ++ g ++
          " (this group has " ++ natStr inv.length ++ " entries)" ++ " - skipping"]) := by
  simp only [node_to_host_refs_aux, hout, if_pos hk, Bool.false_eq_true, if_false]

theorem aux_err_of_missing (outputs : String → Option (List String)) :
    ∀ (refs : List TestnetNodeRef) (acc : List TestnetHostRef) (seen logs : List String),
      (∃ ref ∈ refs, outputs ref.group = none) →
      isOkE (node_to_host_refs_aux outputs true refs acc seen logs) = false := by
  intro refs
  induction refs with
  | nil =>
    intro acc seen logs h
    obtain ⟨ref, hm, _⟩ := h
    cases hm
  | cons r rest ih =>
    intro acc seen logs h
    cases hout : outputs r.group with
    | none => rw [aux_error_missing outputs r rest acc seen logs hout]; rfl
    | some inv =>
      have hrest : ∃ ref ∈ rest, outputs ref.group = none := by
        obtain ⟨ref, hm, hnone⟩ := h
        rcases List.mem_cons.mp hm with rfl | hm'
        · rw [hout] at hnone; cases hnone
        · exact ⟨ref, hm', hnone⟩
      cases hid : r.id with
      | none =>
        simp only [node_to_host_refs_aux, hout, hid]
        exact ih _ _ _ hrest
      | some k =>
        simp only [node_to_host_refs_aux, hout, hid]
        by_cases hk : k < 0 ∨ (inv.length : Int) ≤ k
        · rw [if_pos hk]
          simp [isOkE]
        · rw [if_neg hk]
          by_cases hseen : inv.getD k.toNat "" ∈ seen
          · rw [if_pos hseen]
            exact ih _ _ _ hrest
          · rw [if_neg hseen]
            exact ih _ _ _ hrest

/-- C9: resolving references whose groups have no recorded provisioning
output returns an empty host list with one skip log per reference when
fail_on_missing is false, raises when it is true, and an out-of-range node
index is handled the same way under both flag values (error when true,
logged skip when false). -/
theorem C9_missing_outputs (outputs : String → Option (List String)) :
    (∀ (refs : List TestnetNodeRef), (∀ ref ∈ refs, outputs ref.group = none) →
      node_to_host_refs outputs refs false =
        Except.ok ([], refs.map
          (fun ref => "Node group " ++ ref.group ++
            " has not yet been deployed - skipping"))) ∧
    (∀ (refs : List TestnetNodeRef), (∃ ref ∈ refs, outputs ref.group = none) →
      isOkE (node_to_host_refs outputs refs true) = false) ∧
    (∀ (g : String) (inv : List String) (k : Int), outputs g = some inv →
      (k < 0 ∨ (inv.length : Int) ≤ k) →
      isOkE (node_to_host_refs outputs [{ group := g, id := some k }] true) = false ∧
      node_to_host_refs outputs [{ group := g, id := some k }] false =
        Except.ok ([], ["Invalid ID " ++ intStr k ++ " for host in node group " ++ g ++
          " (this group has " ++ natStr inv.length ++ " entries)" ++ " - skipping"])) := by
  refine ⟨?_, ?_, ?_⟩
  · intro refs h
    rw [node_to_host_refs, aux_all_missing outputs refs [] [] [] h]
    rfl
  · intro refs h
    exact aux_err_of_missing outputs refs [] [] [] h
  · intro g inv k hout hk
    constructor
    · rw [node_to_host_refs, aux_out_of_range_error outputs g inv k [] [] [] [] hout hk]
      rfl
    · rw [node_to_host_refs, aux_out_of_range_skip outputs g inv k [] [] [] [] hout hk,
        aux_nil_hosts]
      rfl

/-- Witness for C9: one reference to an undeployed group and one out-of-range
index against a one-host group. -/
theorem C9_witness :
    (node_to_host_refs (fun s => if s = "validators" then some ["host1"] else none)
        [{ group := "seeds" }] false =
      Except.ok ([], ["Node group " ++ "seeds" ++
        " has not yet been deployed - skipping"])) ∧
    isOkE (node_to_host_refs (fun s => if s = "validators" then some ["host1"] else none)
        [{ group := "seeds" }] true) = false ∧
    isOkE (node_to_host_refs (fun s => if s = "validators" then some ["host1"] else none)
        [{ group := "validators", id := some 3 }] true) = false := by
  have h1 := (C9_missing_outputs
    (fun s => if s = "validators" then some ["host1"] else none)).1
    [{ group := "seeds" }] (by decide)
  have h2 := (C9_missing_outputs
    (fun s => if s = "validators" then some ["host1"] else none)).2.1
    [{ group := "seeds" }] ⟨{ group := "seeds" }, by decide, by decide⟩
  have h3 := ((C9_missing_outputs
    (fun s => if s = "validators" then some ["host1"] else none)).2.2
    "validators" ["host1"] 3 (by decide) (by decide)).1
  exact ⟨by simpa using h1, h2, h3⟩

/-- C10: parsing a node reference performs no bounds or existence check on
the index (g[k] parses to id k for every integer k, negative included);
range checking happens only in node_to_host_refs, where a negative id takes
exactly the same branch as a too-large one: error when fail_on_missing is
true, logged skip when false. -/
theorem C10_no_bounds_at_parse (g ctx : String) (k : Int)
    (hg : g.toList.all ALLOWED_GROUP_NAME_CHARSET = true)
    (outputs : String → Option (List String)) (inv : List String)
    (hout : outputs g = some inv) (hk : k < 0 ∨ (inv.length : Int) ≤ k) :
    as_testnet_node_ref (g ++ "[" ++ String.mk (intToDecimal k) ++ "]") ctx =
      Except.ok { group := g, id := some k } ∧
    isOkE (node_to_host_refs outputs [{ group := g, id := some k }] true) = false ∧
    node_to_host_refs outputs [{ group := g, id := some k }] false =
      Except.ok ([], ["Invalid ID " ++ intStr k ++ " for host in node group " ++ g ++
        " (this group has " ++ natStr inv.length ++ " entries)" ++ " - skipping"]) := by
  refine ⟨as_testnet_node_ref_indexed g ctx k hg, ?_, ?_⟩
  · rw [node_to_host_refs, aux_out_of_range_error outputs g inv k [] [] [] [] hout hk]
    rfl
  · rw [node_to_host_refs, aux_out_of_range_skip outputs g inv k [] [] [] [] hout hk,
      aux_nil_hosts]
    rfl

/-- Witness for C10 at the negative index -1 against a one-host group. -/
theorem C10_witness :
    as_testnet_node_ref ("validators" ++ "[" ++ String.mk (intToDecimal (-1)) ++ "]") "c" =
      Except.ok { group := "validators", id := some (-1) } ∧
    isOkE (node_to_host_refs (fun s => if s = "validators" then some ["host1"] else none)
        [{ group := "validators", id := some (-1) }] true) = false ∧
    node_to_host_refs (fun s => if s = "validators" then some ["host1"] else none)
        [{ group := "validators", id := some (-1) }] false =
      Except.ok ([], ["Invalid ID " ++ intStr (-1) ++ " for host in node group " ++
        "validators" ++ " (this group has " ++ natStr 1 ++ " entries)" ++ " - skipping"]) := by
  have h := C10_no_bounds_at_parse "validators" "c" (-1) (by decide)
    (fun s => if s = "validators" then some ["host1"] else none) ["host1"]
    (by decide) (by decide)
  exact h

theorem parse_regions_list_some (l : List (List (String × Int))) (ctx : String) :
    parse_regions_list (some l) ctx = parse_regions_aux ctx l 0 0 [] := rfl

theorem map_zero_regions_sum (l : List String) :
    ((l.map (fun r => ((r, { node_count := 0, start_id := 0 }) :
        String × TestnetRegionConfig))).map (fun e => e.2.node_count)).sum = 0 := by
  induction l with
  | nil => rfl
  | cons x t ih => simpa using ih

/-- C5: for every valid region list, each declared region's start_id is the
sum of the node counts declared before it, every supported region has an
entry in the result (the unlisted ones with count zero), and the total node
count over all entries equals the sum of the declared counts. -/
theorem C5_region_allocation (items : List (String × Int)) (ctx : String)
    (res : List (String × TestnetRegionConfig))
    (h : parse_regions_list (some (items.map (fun p => [p]))) ctx = Except.ok res) :
    (∀ i, i < items.length →
      res.getD i ("", { node_count := 0, start_id := 0 }) =
        ((items.getD i ("", 0)).1,
          { node_count := (items.getD i ("", 0)).2,
            start_id := ((items.take i).map Prod.snd).sum })) ∧
    (∀ r ∈ SUPPORTED_REGIONS, ∃ e ∈ res, e.1 = r) ∧
    (res.map (fun e => e.2.node_count)).sum = (items.map Prod.snd).sum := by
  rw [parse_regions_list_some] at h
  have hshape := parse_regions_aux_ok_shape ctx items 0 0 [] res h
  refine ⟨?_, ?_, ?_⟩
  · intro i hi
    rw [hshape, regionsSpec_getD items 0 i hi _]
    simp
  · intro r hr
    rw [hshape]
    by_cases hmem : r ∈ items.map Prod.fst
    · have hm2 : r ∈ (regionsSpec items 0).map Prod.fst := by
        rw [regionsSpec_map_fst]; exact hmem
      obtain ⟨e, he, hee⟩ := List.mem_map.mp hm2
      exact ⟨e, List.mem_append.mpr (Or.inl he), hee⟩
    · refine ⟨(r, { node_count := 0, start_id := 0 }),
        List.mem_append.mpr (Or.inr (List.mem_map.mpr ⟨r, ?_, rfl⟩)), rfl⟩
      apply List.mem_filter.mpr
      refine ⟨hr, ?_⟩
      simp [hmem]
  · rw [hshape, List.map_append, List.sum_append, regionsSpec_counts,
      map_zero_regions_sum]
    simp

/-- Witness for C5 on the two-region list us_east_1: 2, us_west_1: 3. -/
theorem C5_witness :
    ∃ res, parse_regions_list (some [[("us_east_1", (2 : Int))], [("us_west_1", 3)]]) "c" =
        Except.ok res ∧
      res.getD 1 ("", { node_count := 0, start_id := 0 }) =
        ("us_west_1", { node_count := 3, start_id := 2 }) ∧
      (res.map (fun e => e.2.node_count)).sum = 5 := by
  cases hres : parse_regions_list (some [[("us_east_1", (2 : Int))], [("us_west_1", 3)]]) "c" with
  | error e =>
    have hok : isOkE (parse_regions_list
        (some [[("us_east_1", (2 : Int))], [("us_west_1", 3)]]) "c") = true := by decide
    rw [hres] at hok
    cases hok
  | ok res =>
    have h := C5_region_allocation [("us_east_1", 2), ("us_west_1", 3)] "c" res hres
    refine ⟨res, rfl, ?_, ?_⟩
    · exact (h.1 1 (by decide)).trans (by decide)
    · exact h.2.2.trans (by decide)

/-- C4 amended: a region list given as one-entry mappings is accepted by
parse_regions_list exactly when every declared region is in the supported
set and none is declared twice; the at-least-one-region-with-positive-count
condition is not checked (see the counterexample: an empty region list, and
hence a group with node count zero everywhere, loads successfully). -/
theorem C4_region_validation (items : List (String × Int)) (ctx : String) :
    isOkE (parse_regions_list (some (items.map (fun p => [p]))) ctx) = true ↔
      (∀ p ∈ items, p.1 ∈ SUPPORTED_REGIONS) ∧ (items.map Prod.fst).Nodup := by
  rw [parse_regions_list_some, parse_regions_aux_ok_iff ctx items 0 0 []]
  constructor
  · rintro ⟨a, b, _⟩
    exact ⟨a, b⟩
  · rintro ⟨a, b⟩
    exact ⟨a, b, fun p _ => by simp⟩

/-- The configuration document of the C4 counterexample: a single node group
whose regions list is empty. -/
def docC4 : TestnetDoc :=
  { id := some "empty-regions",
    node_groups := some [[("validators", { regions := some [] })]] }

/-- Counterexample to C4 as stated: a group with an empty regions list (so
no region at all has node count above zero) is accepted by configuration
loading; the resulting group carries the zero-count entry for all seven
supported regions. -/
theorem C4_counterexample :
    isOkE (load_testnet_config docC4 "/base" (fun _ => false) "/home") = true ∧
    (load_testnet_config docC4 "/base" (fun _ => false) "/home").map
        (fun cfg => cfg.node_groups.map (fun gr =>
          gr.2.regions.map (fun e => e.2.node_count))) =
      Except.ok [[0, 0, 0, 0, 0, 0, 0]] :=
  ⟨by decide, by decide⟩

/-- Witness for C4 (amended direction) at a valid singleton region list. -/
theorem C4_witness :
    isOkE (parse_regions_list (some [[("us_east_1", (2 : Int))]]) "c") = true :=
  (C4_region_validation [("us_east_1", 2)] "c").mpr (by decide)

-- Lemmas for symbolic evaluation of configuration loading.

theorem refs_aux_cons (ctx : String) (i : Nat) (s : String) (rest : List String) :
    as_testnet_node_refs_aux ctx i (s :: rest) =
      (as_testnet_node_ref s ("entry " ++ String.mk (natToDecimal i) ++ ", " ++ ctx)).bind
        (fun r => (as_testnet_node_refs_aux ctx (i + 1) rest).map (fun rs => r :: rs)) := rfl

theorem as_testnet_node_refs_singleton (r : String)
    (h : r.toList.all ALLOWED_GROUP_NAME_CHARSET = true) (ctx : String) :
    as_testnet_node_refs [r] ctx = Except.ok [{ group := r }] := by
  show as_testnet_node_refs_aux ctx 0 [r] = _
  rw [refs_aux_cons, as_testnet_node_ref_whole_group r _ h, except_bind_ok]
  rfl

theorem load_node_group_config_ok (doc : NodeGroupDoc) (base : String)
    (names : List String) (isfile : String → Bool)
    (regions : List (String × TestnetRegionConfig)) (us pp : List TestnetNodeRef)
    (ct : Option String)
    (h1 : ∀ ctx, parse_regions_list doc.regions ctx = Except.ok regions)
    (h2 : ∀ ctx, as_testnet_node_refs (doc.use_seeds.getD []) ctx = Except.ok us)
    (h3 : ∀ ctx, as_testnet_node_refs (doc.persistent_peers.getD []) ctx = Except.ok pp)
    (h4 : ∀ ctx, loadConfigTemplate doc.config_template base ctx isfile = Except.ok ct)
    (h5 : ∀ ctx, abciCheck doc.abci names ctx = Except.ok ()) :
    ∀ ctx, load_node_group_config doc ctx base names isfile =
      Except.ok (mkNodeGroupConfig doc regions us pp ct) := by
  intro ctx
  unfold load_node_group_config
  rw [h1, except_bind_ok, h2, except_bind_ok, h3, except_bind_ok, h4, except_bind_ok,
    h5, except_map_ok]

theorem load_node_groups_single (name : String) (gdoc : NodeGroupDoc) (base : String)
    (names : List String) (isfile : String → Bool) (g : TestnetNodeGroupConfig)
    (h : ∀ ctx, load_node_group_config gdoc ctx base names isfile = Except.ok g) :
    load_node_groups_config [[(name, gdoc)]] base names isfile = Except.ok [(name, g)] := by
  show as_ordered_dict_aux
    (fun doc ctx => load_node_group_config doc ctx base names isfile)
    "in node_groups configuration" 0 [] [[(name, gdoc)]] = Except.ok [(name, g)]
  simp only [as_ordered_dict_aux]
  rw [h _, except_bind_ok]
  rfl

/-- The configuration a single-group document loads to: default monitoring,
no abci configurations, no load tests. -/
def mkTestnetConfig (tid : String) (ngs : List (String × TestnetNodeGroupConfig))
    (home : String) : TestnetConfig :=
  { id := tid, monitoring := { signalfx := {}, influxdb := {} }, abci := [],
    node_groups := ngs, load_tests := [], home := home }

theorem load_testnet_config_single (tid name : String) (gdoc : NodeGroupDoc)
    (base : String) (isfile : String → Bool) (home : String) (g : TestnetNodeGroupConfig)
    (h : ∀ ctx, load_node_group_config gdoc ctx base [] isfile = Except.ok g) :
    load_testnet_config { id := some tid, node_groups := some [[(name, gdoc)]] }
        base isfile home =
      Except.ok (mkTestnetConfig tid [(name, g)] home) := by
  have hrw : load_testnet_config { id := some tid, node_groups := some [[(name, gdoc)]] }
      base isfile home =
      (load_node_groups_config [[(name, gdoc)]] base [] isfile).bind (fun ngs =>
        Except.ok (mkTestnetConfig tid ngs home)) := rfl
  rw [hrw, load_node_groups_single name gdoc base [] isfile g h, except_bind_ok]

/-- The node-group document of the C3 family: a group in one region whose
use_seeds holds the single reference string r. -/
def gdocC3 (r : String) : NodeGroupDoc :=
  { regions := some [[("us_east_1", 2)]], use_seeds := some [r] }

/-- The configuration document of the C3 family: one group named
"validators" with use_seeds [r]. -/
def docC3fam (r : String) : TestnetDoc :=
  { id := some "testnet1", node_groups := some [[("validators", gdocC3 r)]] }

/-- Parsed regions of the C3 family group. -/
def regionsC3 : List (String × TestnetRegionConfig) :=
  [("us_east_1", { node_count := 2, start_id := 0 }),
   ("us_east_2", { node_count := 0, start_id := 0 }),
   ("us_west_1", { node_count := 0, start_id := 0 }),
   ("ap_northeast_2", { node_count := 0, start_id := 0 }),
   ("ap_southeast_2", { node_count := 0, start_id := 0 }),
   ("eu_central_1", { node_count := 0, start_id := 0 }),
   ("eu_west_1", { node_count := 0, start_id := 0 })]

/-- C3 amended: configuration loading validates use_seeds references only
syntactically. For every charset-valid group name r — whether or not any
group of that name exists — the configuration that references r in
use_seeds loads successfully, storing the reference unresolved; there is no
second validation pass against the group registry. -/
theorem C3_no_second_pass (r : String)
    (h : r.toList.all ALLOWED_GROUP_NAME_CHARSET = true) :
    load_testnet_config (docC3fam r) "/base" (fun _ => false) "/home" =
      Except.ok (mkTestnetConfig "testnet1"
        [("validators", mkNodeGroupConfig (gdocC3 r) regionsC3 [{ group := r }] [] none)]
        "/home") := by
  apply load_testnet_config_single
  apply load_node_group_config_ok
  · intro ctx
    show parse_regions_list (some [[("us_east_1", 2)]]) ctx = _
    rw [parse_regions_list_some, parse_regions_aux_pair, if_neg (by decide),
      if_neg (by decide), parse_regions_aux_nil, except_map_ok]
    decide
  · intro ctx
    exact as_testnet_node_refs_singleton r h ctx
  · intro ctx
    rfl
  · intro ctx
    rfl
  · intro ctx
    rfl

/-- Counterexample to C3 as stated: the configuration whose group
"validators" lists use_seeds ["nonexistent"] — a group name absent from the
registry — loads successfully instead of failing with a validation error. -/
theorem C3_counterexample :
    isOkE (load_testnet_config (docC3fam "nonexistent") "/base"
      (fun _ => false) "/home") = true ∧
    (load_testnet_config (docC3fam "nonexistent") "/base" (fun _ => false) "/home").map
        (fun cfg => (cfg.node_groups.map Prod.fst,
          cfg.node_groups.map (fun gr => gr.2.use_seeds))) =
      Except.ok (["validators"], [[{ group := "nonexistent" }]]) ∧
    "nonexistent" ∉ ["validators"] :=
  ⟨by decide, by decide, by decide⟩

/-- Witness for the amended C3 at the absent group name "nonexistent". -/
theorem C3_witness :
    load_testnet_config (docC3fam "nonexistent") "/base" (fun _ => false) "/home" =
      Except.ok (mkTestnetConfig "testnet1"
        [("validators", mkNodeGroupConfig (gdocC3 "nonexistent") regionsC3
          [{ group := "nonexistent" }] [] none)]
        "/home") :=
  C3_no_second_pass "nonexistent" (by decide)

-- Lemmas about the finalize pass.

theorem genesisWritePass_content (tc : List (String × List TendermintNodeConfig))
    (gbytes : String) :
    ∀ (groups : List (String × TestnetNodeGroupConfig)) (gws : List (String × String)),
      genesisWritePass tc gbytes groups = Except.ok gws →
      ∀ w ∈ gws, w.2 = gbytes := by
  intro groups
  induction groups with
  | nil =>
    intro gws h w hw
    cases h
    cases hw
  | cons p rest ih =>
    intro gws h w hw
    obtain ⟨name, gcfg⟩ := p
    simp only [genesisWritePass] at h
    cases hd : dictGet tc name with
    | error e => rw [hd] at h; cases h
    | ok nodes =>
      rw [hd] at h
      simp only [except_bind_ok] at h
      cases ht : genesisWritePass tc gbytes rest with
      | error e => rw [ht] at h; cases h
      | ok tail =>
        rw [ht] at h
        simp only [except_map_ok] at h
        cases h
        rcases List.mem_append.mp hw with h1 | h2
        · obtain ⟨n, _, he⟩ := List.mem_map.mp h1
          rw [← he]
        · exact ih tail ht w h2

/-- C1: every successful finalize pass builds the genesis document once —
its genesis_time is the single timestamp taken at the start of the pass and
its chain_id is the configuration's id — and the bytes written to every
node's genesis.json, across every node group, are the same serialization of
that one document. -/
theorem C1_genesis_identical (now : String) (cfg : TestnetConfig)
    (tc : List (String × List TendermintNodeConfig)) (res : FinalizeResult)
    (h : tendermint_finalize_config now cfg tc = Except.ok res) :
    res.genesis_doc.genesis_time = now ∧
    res.genesis_doc.chain_id = cfg.id ∧
    ∀ w ∈ res.genesis_writes, w.2 = serializeGenesis res.genesis_doc := by
  unfold tendermint_finalize_config at h
  cases hp : processGroups tc cfg.node_groups with
  | error e => rw [hp] at h; cases h
  | ok pr =>
    rw [hp] at h
    simp only [except_bind_ok] at h
    cases hw : genesisWritePass tc
        (serializeGenesis (mkGenesisDoc now cfg.id pr.2)) cfg.node_groups with
    | error e => rw [hw] at h; cases h
    | ok gws =>
      rw [hw] at h
      simp only [except_map_ok] at h
      cases h
      refine ⟨rfl, rfl, ?_⟩
      intro w hww
      exact genesisWritePass_content tc _ cfg.node_groups gws hw w hww

/-- Shared concrete finalize input: group "validators" with two nodes whose
use_seeds is the self-reference validators[0] (Scenario C of the spec). -/
def nodeA : TendermintNodeConfig :=
  { config_path := "/w/validators/node0/config",
    config := { moniker := "node0", p2p := {} },
    priv_validator_key :=
      { address := "A0",
        pub_key := { type := "tendermint/PubKeyEd25519", value := "VAL0" },
        priv_key := { type := "tendermint/PrivKeyEd25519", value := "PRIV0" } },
    node_key := { type := "tendermint/PrivKeyEd25519", value := "NK0" },
    peer_id := "p0@node0:26656" }

def nodeB : TendermintNodeConfig :=
  { config_path := "/w/validators/node1/config",
    config := { moniker := "node1", p2p := {} },
    priv_validator_key :=
      { address := "A1",
        pub_key := { type := "tendermint/PubKeyEd25519", value := "VAL1" },
        priv_key := { type := "tendermint/PrivKeyEd25519", value := "PRIV1" } },
    node_key := { type := "tendermint/PrivKeyEd25519", value := "NK1" },
    peer_id := "p1@node1:26656" }

def gcfgW : TestnetNodeGroupConfig :=
  { use_seeds := [{ group := "validators", id := some 0 }] }

def cfgW : TestnetConfig := mkTestnetConfig "chain1" [("validators", gcfgW)] "/home"

def tcW : List (String × List TendermintNodeConfig) := [("validators", [nodeA, nodeB])]

/-- Witness for C1 on the two-node single-group network. -/
theorem C1_witness :
    ∃ res, tendermint_finalize_config "2020-01-01T00:00:00.000000Z" cfgW tcW =
        Except.ok res ∧
      res.genesis_doc.genesis_time = "2020-01-01T00:00:00.000000Z" ∧
      res.genesis_doc.chain_id = cfgW.id ∧
      ∀ w ∈ res.genesis_writes, w.2 = serializeGenesis res.genesis_doc := by
  cases hres : tendermint_finalize_config "2020-01-01T00:00:00.000000Z" cfgW tcW with
  | error e =>
    have hok : isOkE (tendermint_finalize_config "2020-01-01T00:00:00.000000Z" cfgW tcW) =
        true := by decide
    rw [hres] at hok
    cases hok
  | ok res =>
    obtain ⟨h1, h2, h3⟩ :=
      C1_genesis_identical "2020-01-01T00:00:00.000000Z" cfgW tcW res hres
    exact ⟨res, rfl, h1, h2, h3⟩

theorem not_mem_filter_self (a : String) (l : List String) :
    a ∉ l.filter (fun p => p ≠ a) := by
  intro h
  have := (List.mem_filter.mp h).2
  simp at this

/-- Origin of every config.toml write of the group loop: some group of the
configuration, some node of that group, and that group's resolved peer-id
sets, with the node's own peer id filtered out of both joined lists. -/
theorem processGroups_writes (tc : List (String × List TendermintNodeConfig)) :
    ∀ (groups : List (String × TestnetNodeGroupConfig))
      (res : List (String × TomlConfig) × List GenesisValidator),
      processGroups tc groups = Except.ok res →
      ∀ w ∈ res.1, ∃ name gcfg nodes node pps sds,
        (name, gcfg) ∈ groups ∧
        unique_peer_ids gcfg.persistent_peers tc = Except.ok pps ∧
        unique_peer_ids gcfg.use_seeds tc = Except.ok sds ∧
        dictGet tc name = Except.ok nodes ∧ node ∈ nodes ∧
        w = (node.config_path ++ "/config.toml", updatedToml pps sds node) := by
  intro groups
  induction groups with
  | nil =>
    intro res h w hw
    cases h
    cases hw
  | cons p rest ih =>
    intro res h w hw
    obtain ⟨name, gcfg⟩ := p
    simp only [processGroups] at h
    cases h1 : unique_peer_ids gcfg.persistent_peers tc with
    | error e => rw [h1] at h; cases h
    | ok pps =>
      rw [h1] at h
      simp only [except_bind_ok] at h
      cases h2 : unique_peer_ids gcfg.use_seeds tc with
      | error e => rw [h2] at h; cases h
      | ok sds =>
        rw [h2] at h
        simp only [except_bind_ok] at h
        cases h3 : dictGet tc name with
        | error e => rw [h3] at h; cases h
        | ok nodes =>
          rw [h3] at h
          simp only [except_bind_ok] at h
          cases h4 : processGroups tc rest with
          | error e => rw [h4] at h; cases h
          | ok tail =>
            rw [h4] at h
            simp only [except_map_ok] at h
            cases h
            rcases List.mem_append.mp hw with hmem | hmem
            · obtain ⟨node, hn, he⟩ := List.mem_map.mp hmem
              exact ⟨name, gcfg, nodes, node, pps, sds, by simp, h1, h2, h3, hn, he.symm⟩
            · obtain ⟨name', gcfg', nodes', node', pps', sds', hmem', hr⟩ :=
                ih tail h4 w hmem
              exact ⟨name', gcfg', nodes', node', pps', sds',
                List.mem_cons.mpr (Or.inr hmem'), hr⟩

/-- C2: every config.toml written by a finalize pass carries, for both
persistent_peers and seeds, the comma-join of the group's resolved peer-id
set with the node's own peer id removed — so a node never lists itself —
and, concretely, Scenario C: a group "validators" with use_seeds
["validators[0]"] yields an empty seeds string for node 0 and node 0's peer
id in node 1's seeds string. -/
theorem C2_self_exclusion (now : String) (cfg : TestnetConfig)
    (tc : List (String × List TendermintNodeConfig)) (res : FinalizeResult)
    (h : tendermint_finalize_config now cfg tc = Except.ok res) :
    (∀ w ∈ res.config_writes, ∃ name gcfg nodes node pps sds,
      (name, gcfg) ∈ cfg.node_groups ∧
      unique_peer_ids gcfg.persistent_peers tc = Except.ok pps ∧
      unique_peer_ids gcfg.use_seeds tc = Except.ok sds ∧
      dictGet tc name = Except.ok nodes ∧ node ∈ nodes ∧
      w = (node.config_path ++ "/config.toml", updatedToml pps sds node) ∧
      node.peer_id ∉ pps.filter (fun p => p ≠ node.peer_id) ∧
      node.peer_id ∉ sds.filter (fun p => p ≠ node.peer_id)) ∧
    (tendermint_finalize_config "T0" cfgW tcW).map
        (fun r => r.config_writes.map (fun w => w.2.p2p.seeds)) =
      Except.ok ["", "p0@node0:26656"] := by
  constructor
  · intro w hw
    unfold tendermint_finalize_config at h
    cases hp : processGroups tc cfg.node_groups with
    | error e => rw [hp] at h; cases h
    | ok pr =>
      rw [hp] at h
      simp only [except_bind_ok] at h
      cases hgw : genesisWritePass tc
          (serializeGenesis (mkGenesisDoc now cfg.id pr.2)) cfg.node_groups with
      | error e => rw [hgw] at h; cases h
      | ok gws =>
        rw [hgw] at h
        simp only [except_map_ok] at h
        cases h
        obtain ⟨name, gcfg, nodes, node, pps, sds, hmem, h1, h2, h3, hn, he⟩ :=
          processGroups_writes tc cfg.node_groups pr hp w hw
        exact ⟨name, gcfg, nodes, node, pps, sds, hmem, h1, h2, h3, hn, he,
          not_mem_filter_self node.peer_id pps, not_mem_filter_self node.peer_id sds⟩
  · decide

/-- Witness for C2 on the Scenario C network (two validators, use_seeds
referencing validators[0]). -/
theorem C2_witness :
    ∃ res, tendermint_finalize_config "T0" cfgW tcW = Except.ok res ∧
      (∀ w ∈ res.config_writes, ∃ name gcfg nodes node pps sds,
        (name, gcfg) ∈ cfgW.node_groups ∧
        unique_peer_ids gcfg.persistent_peers tcW = Except.ok pps ∧
        unique_peer_ids gcfg.use_seeds tcW = Except.ok sds ∧
        dictGet tcW name = Except.ok nodes ∧ node ∈ nodes ∧
        w = (node.config_path ++ "/config.toml", updatedToml pps sds node) ∧
        node.peer_id ∉ pps.filter (fun p => p ≠ node.peer_id) ∧
        node.peer_id ∉ sds.filter (fun p => p ≠ node.peer_id)) := by
  cases hres : tendermint_finalize_config "T0" cfgW tcW with
  | error e =>
    have hok : isOkE (tendermint_finalize_config "T0" cfgW tcW) = true := by decide
    rw [hres] at hok
    cases hok
  | ok res =>
    exact ⟨res, rfl, (C2_self_exclusion "T0" cfgW tcW res hres).1⟩

end Tmtestnet
